import Mathlib

/-!
# Breath lead voice (`include/dsp/BreathLeadVoice.h`)

A shallow embedding of the per-sample DSP core of the breath lead instrument.

* `float` values are read as elements of an ordered field `F` (the theorems take `F = ℝ`),
  decimal literals as the exact decimals written in the source.
* `u64` values are natural numbers reduced modulo `2 ^ 64` after each operation.
* The three `<cmath>` functions the code calls (`std::exp`, `std::sin`, `std::tanh`) are the
  fields of a `CMath F` record handed to the functions that call them; the theorems
  instantiate it with `Real.exp`, `Real.sin` and `Real.tanh`.
* The function-local `static` variables of `NoiseGenerator::pink` (`b`, `idx`) and of
  `BreathLeadVoice::process` (`tiltState`) exist once per program, not once per object. They
  are the record `Statics F`, threaded through every function that touches them.
-/

namespace Breath

/-- The `<cmath>` functions used by the voice, over the scalar type `F`. -/
structure CMath (F : Type) where
  exp : F → F
  sin : F → F
  tanh : F → F

/-- The function-local `static` variables of the header: `b` and `idx` of
`NoiseGenerator::pink`, `tiltState` of `BreathLeadVoice::process`. One copy per program. -/
structure Statics (F : Type) where
  b : Fin 8 → F
  idx : Fin 8
  tiltState : F

/-- The C++ `struct NoiseGenerator`: the 64-bit seed of the generator. -/
structure NoiseGenerator where
  seed : Nat
  deriving DecidableEq, Repr

/-- The C++ `struct BandpassFilter`. -/
structure BandpassFilter (F : Type) where
  s1 : F
  s2 : F
  f : F
  q : F

/-- The C++ `struct Excitation`. -/
structure Excitation (F : Type) where
  noise : NoiseGenerator
  phase : F
  sineLevel : F

/-- The C++ `struct AirEnvelope`. -/
structure AirEnvelope (F : Type) where
  level : F
  target : F

/-- The C++ `struct BreathLeadVoice`. -/
structure BreathLeadVoice (F : Type) where
  excitation : Excitation F
  formant : BandpassFilter F
  envelope : AirEnvelope F
  sampleRate : F
  freq : F
  air : F
  tone : F
  formantParam : F
  resistance : F
  vibratoDepth : F
  vibratoPhase : F
  driftPhase : F
  tickCount : Nat

/-- What one call of `BreathLeadVoice::process` leaves behind: the statics, the voice and the
two samples written through `outL` and `outR`. -/
structure Processed (F : Type) where
  statics : Statics F
  voice : BreathLeadVoice F
  outL : F
  outR : F

section Model

variable {F : Type} [LinearOrderedField F]

/-- The statics as the program starts: `b = {0}`, `idx = 0`, `tiltState = 0.f`. -/
def Statics.init : Statics F :=
  { b := fun _ => 0, idx := 0, tiltState := 0 }

/-- The member initialisers of `NoiseGenerator`. -/
def NoiseGenerator.init : NoiseGenerator :=
  { seed := 12345 }

/-- The member initialisers of `BandpassFilter`. -/
def BandpassFilter.init : BandpassFilter F :=
  { s1 := 0, s2 := 0, f := 0.1, q := 0.5 }

/-- The member initialisers of `Excitation`. -/
def Excitation.init : Excitation F :=
  { noise := NoiseGenerator.init, phase := 0, sineLevel := 0.1 }

/-- The member initialisers of `AirEnvelope`. -/
def AirEnvelope.init : AirEnvelope F :=
  { level := 0, target := 0 }

/-- A freshly constructed `BreathLeadVoice`. -/
def BreathLeadVoice.init : BreathLeadVoice F :=
  { excitation := Excitation.init
    formant := BandpassFilter.init
    envelope := AirEnvelope.init
    sampleRate := 48000
    freq := 440
    air := 0.5
    tone := 0.5
    formantParam := 0.5
    resistance := 0.5
    vibratoDepth := 0
    vibratoPhase := 0
    driftPhase := 0
    tickCount := 0 }

/-- The library function `std::clamp(v, lo, hi)`. -/
def clamp (v lo hi : F) : F :=
  if v < lo then lo else if hi < v then hi else v

/-- The library function `std::copysign(mag, sgn)`: the magnitude of `mag` with the sign of
`sgn`. -/
def copysign (mag sgn : F) : F :=
  if sgn < 0 then -|mag| else |mag|

/-- The method `NoiseGenerator::white`: one step of the 64-bit linear congruential generator, then
`float((seed >> 32) & 0xFFFFFF) / 16777216.f * 2.f - 1.f`. -/
def NoiseGenerator.white (F : Type) [LinearOrderedField F] (g : NoiseGenerator) :
    F × NoiseGenerator :=
  let seed := (g.seed * 6364136223846793005 + 1442695040888963407) % 2 ^ 64
  ((((seed >>> 32) &&& 0xFFFFFF : Nat) : F) / 16777216 * 2 - 1, { seed := seed })

/-- The method `NoiseGenerator::pink`. All five assignments of the source store into `b[idx]`. -/
def NoiseGenerator.pink (g : NoiseGenerator) (st : Statics F) :
    F × NoiseGenerator × Statics F :=
  let r := g.white F
  let w := r.1
  let idx := st.idx
  let b1 := Function.update st.b idx (0.99886 * st.b idx + w)
  let b2 := Function.update b1 idx (0.99332 * b1 (idx + 3) + w)
  let b3 := Function.update b2 idx (0.96900 * b2 (idx + 5) + w)
  let b4 := Function.update b3 idx (0.86650 * b3 (idx + 7) + w)
  let b5 := Function.update b4 idx (0.55000 * b4 (idx + 1) + w)
  let sum := b5 idx + b5 (idx + 3) + b5 (idx + 5) + b5 (idx + 7) + b5 (idx + 1)
  (sum * 0.2, r.2, { st with b := b5, idx := idx + 1 })

/-- The method `NoiseGenerator::blend`: `white() * (1.f - t) + pink() * t` after clamping `t`;
the two calls are taken in the order written, `white()` first. -/
def NoiseGenerator.blend (g : NoiseGenerator) (st : Statics F) (t : F) :
    F × NoiseGenerator × Statics F :=
  let t := clamp t 0 1
  let rw := g.white F
  let rp := rw.2.pink st
  (rw.1 * (1 - t) + rp.1 * t, rp.2.1, rp.2.2)

/-- The method `BandpassFilter::setFrequency`. -/
def BandpassFilter.setFrequency (bp : BandpassFilter F) (freq sampleRate : F) :
    BandpassFilter F :=
  { bp with f := clamp (freq / sampleRate) 0.001 0.4 }

/-- The method `BandpassFilter::setQ`. -/
def BandpassFilter.setQ (bp : BandpassFilter F) (qVal : F) : BandpassFilter F :=
  { bp with q := clamp qVal 0.5 10 }

/-- The method `BandpassFilter::process`: the returned sample and the filter after the call. -/
def BandpassFilter.process (bp : BandpassFilter F) (input : F) : F × BandpassFilter F :=
  let s1 := bp.s1 + bp.f * (input - bp.s1 - bp.q * bp.s2)
  let s2 := bp.s2 + bp.f * s1
  let s1 := s1 * 0.999
  let s2 := s2 * 0.999
  (s2 * bp.q * 2, { bp with s1 := s1, s2 := s2 })

/-- The function `soft_saturate`. -/
def soft_saturate (x : F) : F :=
  let ax := |x|
  if ax < 1 then x
  else if ax < 2 then copysign (1 + (ax - 1) * 0.5) x
  else copysign 1.5 x

/-- The method `Excitation::process`: the returned sample, the excitation and the statics
after the call. -/
def Excitation.process (m : CMath F) (e : Excitation F) (st : Statics F)
    (noiseBlend freq sampleRate : F) : F × Excitation F × Statics F :=
  let r := e.noise.blend st noiseBlend
  let n := r.1 * 0.5
  let phase := e.phase + freq / sampleRate
  let phase := if phase > 1 then phase - 1 else phase
  let s := m.sin (phase * 6.28318) * e.sineLevel
  (n + s, { e with noise := r.2.1, phase := phase }, r.2.2)

/-- The method `AirEnvelope::setTarget`. -/
def AirEnvelope.setTarget (m : CMath F) (env : AirEnvelope F)
    (t sampleRate attackMs releaseMs : F) : AirEnvelope F :=
  let target := t
  let attackCoef := m.exp (-1 / (attackMs * 0.001 * sampleRate))
  let releaseCoef := m.exp (-1 / (releaseMs * 0.001 * sampleRate))
  let coef := if target > env.level then attackCoef else releaseCoef
  { level := env.level + (target - env.level) * (1 - coef), target := target }

/-- The method `AirEnvelope::get`. -/
def AirEnvelope.get (env : AirEnvelope F) : F :=
  env.level

/-- The method `BreathLeadVoice::prepare`; `float(sr)` is read as `sr`. -/
def BreathLeadVoice.prepare (v : BreathLeadVoice F) (sr : F) : BreathLeadVoice F :=
  { v with
    sampleRate := sr
    tickCount := 0
    vibratoPhase := 0
    driftPhase := 0
    envelope := { level := 0, target := 0 } }

/-- The method `BreathLeadVoice::noteOn`. -/
def BreathLeadVoice.noteOn (v : BreathLeadVoice F) (frequency velocity : F) :
    BreathLeadVoice F :=
  { v with freq := frequency, envelope := { v.envelope with target := velocity * v.air } }

/-- The method `BreathLeadVoice::noteOff`. -/
def BreathLeadVoice.noteOff (v : BreathLeadVoice F) : BreathLeadVoice F :=
  { v with envelope := { v.envelope with target := 0 } }

/-- The method `BreathLeadVoice::process`, the ten numbered stages of the source in their
order. -/
def BreathLeadVoice.process (m : CMath F) (st : Statics F) (v : BreathLeadVoice F) :
    Processed F :=
  let tickCount := (v.tickCount + 1) % 2 ^ 64
  -- 1. excitation
  let ex := v.excitation.process m st 0.5 v.freq v.sampleRate
  let excite := ex.1
  -- 2. air envelope
  let envelope := v.envelope.setTarget m v.envelope.target v.sampleRate 30 120
  let env := envelope.get
  -- 3. vibrato
  let vibratoPhase := v.vibratoPhase + 6 / v.sampleRate
  let vibratoPhase := if vibratoPhase > 1 then vibratoPhase - 1 else vibratoPhase
  let vibrato := m.sin (vibratoPhase * 6.28318) * v.vibratoDepth * 0.02
  -- 4. drift
  let driftPhase := v.driftPhase + 0.5 / v.sampleRate
  let driftPhase := if driftPhase > 1 then driftPhase - 1 else driftPhase
  let drift := m.sin (driftPhase * 6.28318) * 0.005
  -- 5. formant filter
  let pitch := v.freq * (1 + vibrato + drift)
  let formant := (v.formant.setFrequency pitch v.sampleRate).setQ (1 + v.formantParam * 4)
  let fr := formant.process excite
  let resonated := fr.1
  -- 6. tone shaping, on the static register
  let tiltCoef := 0.95 + v.tone * 0.049
  let tiltState := ex.2.2.tiltState + (resonated - ex.2.2.tiltState) * (1 - tiltCoef)
  let tilted := tiltState + resonated * (1 - tiltCoef)
  -- 7. resistance
  let compressed := tilted * (0.5 + v.resistance * 0.5)
  -- 8. envelope
  let shaped := compressed * env
  -- 9. soft saturation
  let saturated := soft_saturate (shaped * 2)
  -- 10. limiter
  let limited := m.tanh saturated
  { statics := { ex.2.2 with tiltState := tiltState }
    voice :=
      { v with
        excitation := ex.2.1
        formant := fr.2
        envelope := envelope
        vibratoPhase := vibratoPhase
        driftPhase := driftPhase
        tickCount := tickCount }
    outL := limited * 0.7
    outR := limited * 0.7 }

/-- The four operations a host performs on a voice. -/
inductive Call (F : Type) where
  | prepare (sr : F)
  | noteOn (frequency velocity : F)
  | noteOff
  | process

/-- Running a finite sequence of calls on one voice of a program whose statics are `st`:
the statics and the voice at the end, and the `(outL, outR)` pairs written by the `process`
calls, in order. -/
def run (m : CMath F) (st : Statics F) (v : BreathLeadVoice F) :
    List (Call F) → Statics F × BreathLeadVoice F × List (F × F)
  | [] => (st, v, [])
  | Call.prepare sr :: cs => run m st (v.prepare sr) cs
  | Call.noteOn frequency velocity :: cs => run m st (v.noteOn frequency velocity) cs
  | Call.noteOff :: cs => run m st v.noteOff cs
  | Call.process :: cs =>
    let p := v.process m st
    let r := run m p.statics p.voice cs
    (r.1, r.2.1, (p.outL, p.outR) :: r.2.2)

/-- The envelope level of the voice once the calls have run. -/
def levelAfter (m : CMath F) (st : Statics F) (v : BreathLeadVoice F)
    (calls : List (Call F)) : F :=
  (run m st v calls).2.1.envelope.level

/-- A fresh voice that sounds at a steady state, envelope level and target both 0.5. -/
def steadyVoice : BreathLeadVoice F :=
  { (BreathLeadVoice.init : BreathLeadVoice F) with envelope := { level := 0.5, target := 0.5 } }

/-- Stage 1 of `process`: the call of `Excitation::process`. -/
def BreathLeadVoice.excite (m : CMath F) (st : Statics F) (v : BreathLeadVoice F) :
    F × Excitation F × Statics F :=
  v.excitation.process m st 0.5 v.freq v.sampleRate

/-- Stages 3 to 5 of `process` up to the two setter calls: the formant filter tuned for this
sample. -/
def BreathLeadVoice.tunedFormant (m : CMath F) (v : BreathLeadVoice F) : BandpassFilter F :=
  let vibratoPhase := v.vibratoPhase + 6 / v.sampleRate
  let vibratoPhase := if vibratoPhase > 1 then vibratoPhase - 1 else vibratoPhase
  let vibrato := m.sin (vibratoPhase * 6.28318) * v.vibratoDepth * 0.02
  let driftPhase := v.driftPhase + 0.5 / v.sampleRate
  let driftPhase := if driftPhase > 1 then driftPhase - 1 else driftPhase
  let drift := m.sin (driftPhase * 6.28318) * 0.005
  let pitch := v.freq * (1 + vibrato + drift)
  (v.formant.setFrequency pitch v.sampleRate).setQ (1 + v.formantParam * 4)

/-- The value `resonated` of `process`. -/
def BreathLeadVoice.resonated (m : CMath F) (st : Statics F) (v : BreathLeadVoice F) : F :=
  ((v.tunedFormant m).process (v.excite m st).1).1

/-- The value `tiltCoef` of `process`. -/
def BreathLeadVoice.tiltCoef (v : BreathLeadVoice F) : F :=
  0.95 + v.tone * 0.049

/-- The value of `tiltState` after the update in `process`. -/
def BreathLeadVoice.tiltNext (m : CMath F) (st : Statics F) (v : BreathLeadVoice F) : F :=
  st.tiltState + (v.resonated m st - st.tiltState) * (1 - v.tiltCoef)

/-- The value `tilted` of `process`. -/
def BreathLeadVoice.tilted (m : CMath F) (st : Statics F) (v : BreathLeadVoice F) : F :=
  v.tiltNext m st + v.resonated m st * (1 - v.tiltCoef)

/-- The voice after `prepare(48000)` and `noteOn(440, 1)` on a fresh voice. -/
def soundingVoice : BreathLeadVoice F :=
  (BreathLeadVoice.init.prepare 48000).noteOn 440 1

/-- The operations a host performs on a `BandpassFilter`. -/
inductive FilterOp (F : Type) where
  | setFrequency (freq sampleRate : F)
  | setQ (qVal : F)
  | process (input : F)

/-- Running a finite sequence of operations on a filter; the samples returned by `process`
are dropped. -/
def runFilter (bp : BandpassFilter F) : List (FilterOp F) → BandpassFilter F
  | [] => bp
  | FilterOp.setFrequency freq sampleRate :: ops =>
    runFilter (bp.setFrequency freq sampleRate) ops
  | FilterOp.setQ qVal :: ops => runFilter (bp.setQ qVal) ops
  | FilterOp.process input :: ops => runFilter (bp.process input).2 ops

/-- One step of the linear congruential generator of `white` on a 64-bit state. -/
def lcgStep (s : Nat) : Nat :=
  (s * 6364136223846793005 + 1442695040888963407) % 2 ^ 64

/-- The `pink` of the specification's words, for comparison with `NoiseGenerator.pink`: each of
the five summed taps (slots `idx`, `idx + 3`, `idx + 5`, `idx + 7`, `idx + 1`) is a one-pole
filter with its own coefficient, `tap := coefficient * tap + w`, fed with the same white
sample. -/
def NoiseGenerator.pinkAsSpecified (g : NoiseGenerator) (st : Statics F) :
    F × NoiseGenerator × Statics F :=
  let r := g.white F
  let w := r.1
  let idx := st.idx
  let b1 := Function.update st.b idx (0.99886 * st.b idx + w)
  let b2 := Function.update b1 (idx + 3) (0.99332 * b1 (idx + 3) + w)
  let b3 := Function.update b2 (idx + 5) (0.96900 * b2 (idx + 5) + w)
  let b4 := Function.update b3 (idx + 7) (0.86650 * b3 (idx + 7) + w)
  let b5 := Function.update b4 (idx + 1) (0.55000 * b4 (idx + 1) + w)
  let sum := b5 idx + b5 (idx + 3) + b5 (idx + 5) + b5 (idx + 7) + b5 (idx + 1)
  (sum * 0.2, r.2, { st with b := b5, idx := idx + 1 })

/-- The voice once the calls have run. -/
def voiceAfter (m : CMath F) (st : Statics F) (v : BreathLeadVoice F)
    (calls : List (Call F)) : BreathLeadVoice F :=
  (run m st v calls).2.1

/-- The filter state after `n` calls of `process` with zero input. -/
def zeroInputRun (bp : BandpassFilter F) (n : Nat) : BandpassFilter F :=
  runFilter bp (List.replicate n (FilterOp.process 0))

/-- Trace of the matrix of the zero-input state update
`(s1, s2) ↦ 0.999 * ((1 - f) * s1 - f * q * s2, f * (1 - f) * s1 + (1 - f^2 * q) * s2)`. -/
def dampedTrace (f q : F) : F :=
  0.999 * (1 - f) + 0.999 * (1 - f ^ 2 * q)

/-- Determinant of the matrix of the zero-input state update. -/
def dampedDet (f q : F) : F :=
  0.999 * (1 - f) * (0.999 * (1 - f ^ 2 * q)) - 0.999 * (-(f * q)) * (0.999 * (f * (1 - f)))

/-- A quadratic form of the filter state that the undamped zero-input update does not
increase; it bounds both state registers. -/
def filterEnergy (f q s1 s2 : F) : F :=
  (1 - (1 - f) ^ 2) * (((1 - f) * s1 - f * q * s2) ^ 2 + s1 ^ 2) -
    2 * (2 - f - f ^ 2 * q) * (1 - (1 - f)) * ((1 - f) * s1 - f * q * s2) * s1

/-- Stage 6 of `process` as a function of `tone`, the tilt register and the filter output
`resonated`: the updated register and the value `tilted`. -/
def tiltStage (tone tiltState resonated : F) : F × F :=
  let tiltCoef := 0.95 + tone * 0.049
  let tiltState := tiltState + (resonated - tiltState) * (1 - tiltCoef)
  let tilted := tiltState + resonated * (1 - tiltCoef)
  (tiltState, tilted)

/-- The weight the tilt stage gives to its raw input in its output: the value `tilted` for a
unit input and an empty register. -/
def tiltInputWeight (tone : F) : F :=
  (tiltStage tone 0 1).2

end Model

/-! ## Facts about the real functions -/

theorem real_tanh_lt_one (x : ℝ) : Real.tanh x < 1 := by
  rw [Real.tanh_eq_sinh_div_cosh, div_lt_one (Real.cosh_pos x)]
  exact Real.sinh_lt_cosh x

theorem real_neg_one_lt_tanh (x : ℝ) : -1 < Real.tanh x := by
  rw [Real.tanh_eq_sinh_div_cosh, lt_div_iff₀ (Real.cosh_pos x)]
  have h := Real.exp_pos x
  rw [← Real.sinh_add_cosh x] at h
  linarith

/-! ## Boundedness of the output (C1) -/

theorem process_out_bounds (st : Statics ℝ) (v : BreathLeadVoice ℝ) :
    -1 < (v.process (CMath.mk Real.exp Real.sin Real.tanh) st).outL ∧
      (v.process (CMath.mk Real.exp Real.sin Real.tanh) st).outL < 1 ∧
      -1 < (v.process (CMath.mk Real.exp Real.sin Real.tanh) st).outR ∧
      (v.process (CMath.mk Real.exp Real.sin Real.tanh) st).outR < 1 := by
  simp only [BreathLeadVoice.process]
  generalize @soft_saturate ℝ _ _ = y
  have h1 := real_tanh_lt_one y
  have h2 := real_neg_one_lt_tanh y
  refine ⟨?_, ?_, ?_, ?_⟩ <;> nlinarith

theorem run_out_bounds (calls : List (Call ℝ)) :
    ∀ (st : Statics ℝ) (v : BreathLeadVoice ℝ),
      ∀ o ∈ (run (CMath.mk Real.exp Real.sin Real.tanh) st v calls).2.2,
        -1 < o.1 ∧ o.1 < 1 ∧ -1 < o.2 ∧ o.2 < 1 := by
  induction calls with
  | nil => intro st v o ho; simp [run] at ho
  | cons c cs ih =>
    intro st v o ho
    cases c with
    | prepare sr => exact ih _ _ o (by simpa [run] using ho)
    | noteOn frequency velocity => exact ih _ _ o (by simpa [run] using ho)
    | noteOff => exact ih _ _ o (by simpa [run] using ho)
    | process =>
      simp only [run, List.mem_cons] at ho
      rcases ho with rfl | ho
      · exact process_out_bounds st v
      · exact ih _ _ o ho

/-- C1. From every voice state with sample rate at least 8000 and the five gesture parameters
in `[0, 1]`, and for every finite sequence of `prepare` (at a rate of at least 8000),
`noteOn`, `noteOff` and `process` calls, every value that `process` writes to `outL` and to
`outR` lies strictly between -1 and 1. -/
theorem C1_output_strictly_bounded (st : Statics ℝ) (v : BreathLeadVoice ℝ)
    (calls : List (Call ℝ))
    (_hsr : 8000 ≤ v.sampleRate)
    (_hprep : ∀ sr, Call.prepare sr ∈ calls → 8000 ≤ sr)
    (_hair : 0 ≤ v.air ∧ v.air ≤ 1) (_htone : 0 ≤ v.tone ∧ v.tone ≤ 1)
    (_hformant : 0 ≤ v.formantParam ∧ v.formantParam ≤ 1)
    (_hres : 0 ≤ v.resistance ∧ v.resistance ≤ 1)
    (_hvib : 0 ≤ v.vibratoDepth ∧ v.vibratoDepth ≤ 1) :
    ∀ o ∈ (run (CMath.mk Real.exp Real.sin Real.tanh) st v calls).2.2,
      -1 < o.1 ∧ o.1 < 1 ∧ -1 < o.2 ∧ o.2 < 1 :=
  run_out_bounds calls st v

theorem C1_output_strictly_bounded_witness :
    ((8000 : ℝ) ≤ (BreathLeadVoice.init : BreathLeadVoice ℝ).sampleRate ∧
      (∀ sr : ℝ, Call.prepare sr ∈
          [Call.prepare 48000, Call.noteOn 440 1, Call.process, Call.noteOff, Call.process] →
        8000 ≤ sr) ∧
      (0 ≤ (BreathLeadVoice.init : BreathLeadVoice ℝ).air ∧
        (BreathLeadVoice.init : BreathLeadVoice ℝ).air ≤ 1) ∧
      (0 ≤ (BreathLeadVoice.init : BreathLeadVoice ℝ).tone ∧
        (BreathLeadVoice.init : BreathLeadVoice ℝ).tone ≤ 1) ∧
      (0 ≤ (BreathLeadVoice.init : BreathLeadVoice ℝ).formantParam ∧
        (BreathLeadVoice.init : BreathLeadVoice ℝ).formantParam ≤ 1) ∧
      (0 ≤ (BreathLeadVoice.init : BreathLeadVoice ℝ).resistance ∧
        (BreathLeadVoice.init : BreathLeadVoice ℝ).resistance ≤ 1) ∧
      (0 ≤ (BreathLeadVoice.init : BreathLeadVoice ℝ).vibratoDepth ∧
        (BreathLeadVoice.init : BreathLeadVoice ℝ).vibratoDepth ≤ 1)) ∧
      ∀ o ∈ (run (CMath.mk Real.exp Real.sin Real.tanh) Statics.init BreathLeadVoice.init
          [Call.prepare 48000, Call.noteOn 440 1, Call.process, Call.noteOff,
            Call.process]).2.2,
        -1 < o.1 ∧ o.1 < 1 ∧ -1 < o.2 ∧ o.2 < 1 :=
  have hsr : (8000 : ℝ) ≤ (BreathLeadVoice.init : BreathLeadVoice ℝ).sampleRate := by
    norm_num [BreathLeadVoice.init]
  have hprep : ∀ sr : ℝ, Call.prepare sr ∈
      [Call.prepare 48000, Call.noteOn 440 1, Call.process, Call.noteOff, Call.process] →
      8000 ≤ sr := by
    intro sr h
    simp at h
    rw [h]
    norm_num
  have hair : 0 ≤ (BreathLeadVoice.init : BreathLeadVoice ℝ).air ∧
      (BreathLeadVoice.init : BreathLeadVoice ℝ).air ≤ 1 := by
    norm_num [BreathLeadVoice.init]
  have htone : 0 ≤ (BreathLeadVoice.init : BreathLeadVoice ℝ).tone ∧
      (BreathLeadVoice.init : BreathLeadVoice ℝ).tone ≤ 1 := by
    norm_num [BreathLeadVoice.init]
  have hformant : 0 ≤ (BreathLeadVoice.init : BreathLeadVoice ℝ).formantParam ∧
      (BreathLeadVoice.init : BreathLeadVoice ℝ).formantParam ≤ 1 := by
    norm_num [BreathLeadVoice.init]
  have hres : 0 ≤ (BreathLeadVoice.init : BreathLeadVoice ℝ).resistance ∧
      (BreathLeadVoice.init : BreathLeadVoice ℝ).resistance ≤ 1 := by
    norm_num [BreathLeadVoice.init]
  have hvib : 0 ≤ (BreathLeadVoice.init : BreathLeadVoice ℝ).vibratoDepth ∧
      (BreathLeadVoice.init : BreathLeadVoice ℝ).vibratoDepth ≤ 1 := by
    norm_num [BreathLeadVoice.init]
  ⟨⟨hsr, hprep, hair, htone, hformant, hres, hvib⟩,
    C1_output_strictly_bounded Statics.init BreathLeadVoice.init _ hsr hprep hair htone
      hformant hres hvib⟩

/-! ## Frame properties of the note events and of `prepare` (C2, C3) -/

/-- C2. `noteOn(frequency, velocity)` sets `freq` to `frequency` and the envelope target to
`velocity * air`; `noteOff()` sets the envelope target to 0 and keeps `freq`; both leave the
envelope level, the sample rate, the five gesture parameters, both modulation phases, the
tick counter, the filter, the excitation (with its noise seed) and the static registers as
they were, and write no sample. -/
theorem C2_note_events_frame {F : Type} [LinearOrderedField F] (m : CMath F)
    (st : Statics F) (v : BreathLeadVoice F) (frequency velocity : F) :
    ((run m st v [Call.noteOn frequency velocity]).1 = st ∧
      (run m st v [Call.noteOn frequency velocity]).2.2 = [] ∧
      (run m st v [Call.noteOn frequency velocity]).2.1 = v.noteOn frequency velocity ∧
      (v.noteOn frequency velocity).freq = frequency ∧
      (v.noteOn frequency velocity).envelope.target = velocity * v.air ∧
      (v.noteOn frequency velocity).envelope.level = v.envelope.level ∧
      (v.noteOn frequency velocity).sampleRate = v.sampleRate ∧
      (v.noteOn frequency velocity).air = v.air ∧
      (v.noteOn frequency velocity).tone = v.tone ∧
      (v.noteOn frequency velocity).formantParam = v.formantParam ∧
      (v.noteOn frequency velocity).resistance = v.resistance ∧
      (v.noteOn frequency velocity).vibratoDepth = v.vibratoDepth ∧
      (v.noteOn frequency velocity).vibratoPhase = v.vibratoPhase ∧
      (v.noteOn frequency velocity).driftPhase = v.driftPhase ∧
      (v.noteOn frequency velocity).tickCount = v.tickCount ∧
      (v.noteOn frequency velocity).formant = v.formant ∧
      (v.noteOn frequency velocity).excitation = v.excitation) ∧
    ((run m st v [Call.noteOff]).1 = st ∧
      (run m st v [Call.noteOff]).2.2 = [] ∧
      (run m st v [Call.noteOff]).2.1 = v.noteOff ∧
      v.noteOff.freq = v.freq ∧
      v.noteOff.envelope.target = 0 ∧
      v.noteOff.envelope.level = v.envelope.level ∧
      v.noteOff.sampleRate = v.sampleRate ∧
      v.noteOff.air = v.air ∧
      v.noteOff.tone = v.tone ∧
      v.noteOff.formantParam = v.formantParam ∧
      v.noteOff.resistance = v.resistance ∧
      v.noteOff.vibratoDepth = v.vibratoDepth ∧
      v.noteOff.vibratoPhase = v.vibratoPhase ∧
      v.noteOff.driftPhase = v.driftPhase ∧
      v.noteOff.tickCount = v.tickCount ∧
      v.noteOff.formant = v.formant ∧
      v.noteOff.excitation = v.excitation) := by
  refine ⟨⟨?_, ?_, ?_, ?_, ?_, ?_, ?_, ?_, ?_, ?_, ?_, ?_, ?_, ?_, ?_, ?_, ?_⟩,
    ⟨?_, ?_, ?_, ?_, ?_, ?_, ?_, ?_, ?_, ?_, ?_, ?_, ?_, ?_, ?_, ?_, ?_⟩⟩ <;> rfl

/-- C3. `prepare(sr)` sets `sampleRate` to `sr`, sets `tickCount`, `vibratoPhase`,
`driftPhase`, `envelope.level` and `envelope.target` to 0, and leaves the five gesture
parameters `air`, `tone`, `formantParam`, `resistance`, `vibratoDepth` as they were. -/
theorem C3_prepare_frame {F : Type} [LinearOrderedField F] (m : CMath F)
    (st : Statics F) (v : BreathLeadVoice F) (sr : F) :
    (run m st v [Call.prepare sr]).2.1 = v.prepare sr ∧
      (v.prepare sr).sampleRate = sr ∧
      (v.prepare sr).tickCount = 0 ∧
      (v.prepare sr).vibratoPhase = 0 ∧
      (v.prepare sr).driftPhase = 0 ∧
      (v.prepare sr).envelope.level = 0 ∧
      (v.prepare sr).envelope.target = 0 ∧
      (v.prepare sr).air = v.air ∧
      (v.prepare sr).tone = v.tone ∧
      (v.prepare sr).formantParam = v.formantParam ∧
      (v.prepare sr).resistance = v.resistance ∧
      (v.prepare sr).vibratoDepth = v.vibratoDepth := by
  refine ⟨?_, ?_, ?_, ?_, ?_, ?_, ?_, ?_, ?_, ?_, ?_, ?_⟩ <;> rfl

/-! ## The air envelope (C4 to C7) -/

theorem exp_coef_pos (x : ℝ) : 0 < Real.exp (-1 / x) :=
  Real.exp_pos _

theorem exp_coef_lt_one {x : ℝ} (hx : 0 < x) : Real.exp (-1 / x) < 1 := by
  rw [Real.exp_lt_one_iff]
  exact div_neg_of_neg_of_pos (by norm_num) hx

/-- C4. With positive sample rate, attack time and release time, one `setTarget(t, ...)`
moves the level strictly towards `t` without reaching or passing it: strictly between the
old level and `t` when the old level is below `t`, strictly between `t` and the old level
when it is above, and unchanged when it equals `t`. -/
theorem C4_setTarget_monotone (env : AirEnvelope ℝ) (t sampleRate attackMs releaseMs : ℝ)
    (hsr : 0 < sampleRate) (ha : 0 < attackMs) (hr : 0 < releaseMs) :
    (env.level < t →
        env.level <
            (env.setTarget (CMath.mk Real.exp Real.sin Real.tanh) t sampleRate attackMs
              releaseMs).level ∧
          (env.setTarget (CMath.mk Real.exp Real.sin Real.tanh) t sampleRate attackMs
              releaseMs).level < t) ∧
      (t < env.level →
        t <
            (env.setTarget (CMath.mk Real.exp Real.sin Real.tanh) t sampleRate attackMs
              releaseMs).level ∧
          (env.setTarget (CMath.mk Real.exp Real.sin Real.tanh) t sampleRate attackMs
              releaseMs).level < env.level) ∧
      (env.level = t →
        (env.setTarget (CMath.mk Real.exp Real.sin Real.tanh) t sampleRate attackMs
            releaseMs).level = env.level) := by
  have hA : 0 < attackMs * 0.001 * sampleRate := by positivity
  have hR : 0 < releaseMs * 0.001 * sampleRate := by positivity
  have a0 := exp_coef_pos (attackMs * 0.001 * sampleRate)
  have a1 := exp_coef_lt_one hA
  have r0 := exp_coef_pos (releaseMs * 0.001 * sampleRate)
  have r1 := exp_coef_lt_one hR
  refine ⟨fun h => ?_, fun h => ?_, fun h => ?_⟩
  · simp only [AirEnvelope.setTarget, gt_iff_lt, if_pos h]
    constructor <;> nlinarith
  · simp only [AirEnvelope.setTarget, gt_iff_lt, if_neg (not_lt.mpr h.le)]
    constructor <;> nlinarith
  · simp [AirEnvelope.setTarget, h]

theorem C4_setTarget_monotone_witness :
    ((0 : ℝ) < 48000 ∧ (0 : ℝ) < 30 ∧ (0 : ℝ) < 120) ∧
      (((AirEnvelope.mk 0 0 : AirEnvelope ℝ).level < 1 →
        (AirEnvelope.mk 0 0 : AirEnvelope ℝ).level <
            ((AirEnvelope.mk 0 0 : AirEnvelope ℝ).setTarget
              (CMath.mk Real.exp Real.sin Real.tanh) 1 48000 30 120).level ∧
          ((AirEnvelope.mk 0 0 : AirEnvelope ℝ).setTarget
              (CMath.mk Real.exp Real.sin Real.tanh) 1 48000 30 120).level < 1) ∧
      ((1 : ℝ) < (AirEnvelope.mk 0 0 : AirEnvelope ℝ).level →
        1 <
            ((AirEnvelope.mk 0 0 : AirEnvelope ℝ).setTarget
              (CMath.mk Real.exp Real.sin Real.tanh) 1 48000 30 120).level ∧
          ((AirEnvelope.mk 0 0 : AirEnvelope ℝ).setTarget
              (CMath.mk Real.exp Real.sin Real.tanh) 1 48000 30 120).level <
            (AirEnvelope.mk 0 0 : AirEnvelope ℝ).level) ∧
      ((AirEnvelope.mk 0 0 : AirEnvelope ℝ).level = 1 →
        ((AirEnvelope.mk 0 0 : AirEnvelope ℝ).setTarget
            (CMath.mk Real.exp Real.sin Real.tanh) 1 48000 30 120).level =
          (AirEnvelope.mk 0 0 : AirEnvelope ℝ).level)) :=
  ⟨⟨by norm_num, by norm_num, by norm_num⟩,
    C4_setTarget_monotone (AirEnvelope.mk 0 0) 1 48000 30 120 (by norm_num) (by norm_num)
      (by norm_num)⟩

theorem process_voice_sampleRate {F : Type} [LinearOrderedField F] (m : CMath F)
    (st : Statics F) (v : BreathLeadVoice F) :
    (v.process m st).voice.sampleRate = v.sampleRate := by
  cases v
  rfl

theorem process_voice_envelope {F : Type} [LinearOrderedField F] (m : CMath F)
    (st : Statics F) (v : BreathLeadVoice F) :
    (v.process m st).voice.envelope =
      v.envelope.setTarget m v.envelope.target v.sampleRate 30 120 := by
  cases v
  rfl

theorem levelAfter_process_succ {F : Type} [LinearOrderedField F] (m : CMath F)
    (st : Statics F) (v : BreathLeadVoice F) (n : ℕ) :
    levelAfter m st v (List.replicate (n + 1) Call.process) =
      levelAfter m (v.process m st).statics (v.process m st).voice
        (List.replicate n Call.process) := by
  simp only [levelAfter, run, List.replicate_succ]

/-- Release: with target 0 and a non-negative level, `n` calls of `process` multiply the
level by the `n`-th power of the release coefficient. -/
theorem release_level (n : ℕ) :
    ∀ (st : Statics ℝ) (v : BreathLeadVoice ℝ),
      v.envelope.target = 0 → 0 ≤ v.envelope.level →
      levelAfter (CMath.mk Real.exp Real.sin Real.tanh) st v (List.replicate n Call.process) =
        v.envelope.level * Real.exp (-1 / (120 * 0.001 * v.sampleRate)) ^ n := by
  induction n with
  | zero => intro st v _ _; simp [levelAfter, run]
  | succ k ih =>
    intro st v ht hl
    have henv := process_voice_envelope (CMath.mk Real.exp Real.sin Real.tanh) st v
    have hsr := process_voice_sampleRate (CMath.mk Real.exp Real.sin Real.tanh) st v
    have hlev : ((v.process (CMath.mk Real.exp Real.sin Real.tanh) st).voice).envelope.level =
        v.envelope.level * Real.exp (-1 / (120 * 0.001 * v.sampleRate)) := by
      rw [henv]
      simp only [AirEnvelope.setTarget, ht, gt_iff_lt, if_neg (not_lt.mpr hl)]
      ring
    have htar : ((v.process (CMath.mk Real.exp Real.sin Real.tanh) st).voice).envelope.target
        = 0 := by
      rw [henv]
      simp only [AirEnvelope.setTarget, ht]
    have hnn : 0 ≤ ((v.process (CMath.mk Real.exp Real.sin Real.tanh) st).voice).envelope.level
        := by
      rw [hlev]
      exact mul_nonneg hl (Real.exp_pos _).le
    rw [levelAfter_process_succ, ih _ _ htar hnn, hlev, hsr]
    ring

/-- Attack: with the level below the target `T`, `n` calls of `process` multiply the distance
`T - level` by the `n`-th power of the attack coefficient. -/
theorem attack_level (n : ℕ) :
    ∀ (st : Statics ℝ) (v : BreathLeadVoice ℝ), v.envelope.level < v.envelope.target →
      v.envelope.target -
          levelAfter (CMath.mk Real.exp Real.sin Real.tanh) st v
            (List.replicate n Call.process) =
        (v.envelope.target - v.envelope.level) *
          Real.exp (-1 / (30 * 0.001 * v.sampleRate)) ^ n := by
  induction n with
  | zero => intro st v _; simp [levelAfter, run]
  | succ k ih =>
    intro st v hl
    have henv := process_voice_envelope (CMath.mk Real.exp Real.sin Real.tanh) st v
    have hsr := process_voice_sampleRate (CMath.mk Real.exp Real.sin Real.tanh) st v
    have hlev : v.envelope.target -
        ((v.process (CMath.mk Real.exp Real.sin Real.tanh) st).voice).envelope.level =
        (v.envelope.target - v.envelope.level) *
          Real.exp (-1 / (30 * 0.001 * v.sampleRate)) := by
      rw [henv]
      simp only [AirEnvelope.setTarget, gt_iff_lt, if_pos hl]
      ring
    have htar : ((v.process (CMath.mk Real.exp Real.sin Real.tanh) st).voice).envelope.target
        = v.envelope.target := by
      rw [henv]
      simp only [AirEnvelope.setTarget]
    have hlt : ((v.process (CMath.mk Real.exp Real.sin Real.tanh) st).voice).envelope.level <
        ((v.process (CMath.mk Real.exp Real.sin Real.tanh) st).voice).envelope.target := by
      rw [htar]
      have : 0 < (v.envelope.target - v.envelope.level) *
          Real.exp (-1 / (30 * 0.001 * v.sampleRate)) :=
        mul_pos (sub_pos.mpr hl) (Real.exp_pos _)
      linarith
    have h := ih (v.process (CMath.mk Real.exp Real.sin Real.tanh) st).statics _ hlt
    rw [htar, hsr] at h
    rw [levelAfter_process_succ, h, hlev]
    ring

theorem exp_neg_one_gt : (0.3678 : ℝ) < Real.exp (-1) := by
  rw [Real.exp_neg, lt_inv_comm₀ (by norm_num) (Real.exp_pos 1)]
  exact lt_trans Real.exp_one_lt_d9 (by norm_num)

theorem exp_neg_one_lt : Real.exp (-1) < (0.3679 : ℝ) := by
  rw [Real.exp_neg, inv_lt_comm₀ (Real.exp_pos 1) (by norm_num)]
  exact lt_trans (by norm_num) Real.exp_one_gt_d9

theorem exp_neg_five_lt : Real.exp (-5) < (0.01 : ℝ) := by
  have h : Real.exp (-5) = Real.exp (-1) ^ 5 := by
    rw [← Real.exp_nat_mul]
    norm_num
  rw [h]
  have h0 := Real.exp_pos (-1)
  have h1 := exp_neg_one_lt
  calc Real.exp (-1) ^ 5 < (0.3679 : ℝ) ^ 5 := pow_lt_pow_left₀ h1 h0.le (by norm_num)
    _ < 0.01 := by norm_num

theorem levelAfter_prepare_noteOn (st : Statics ℝ) (v : BreathLeadVoice ℝ)
    (sr frequency velocity : ℝ) (n : ℕ) (hT : 0 < velocity * v.air) :
    levelAfter (CMath.mk Real.exp Real.sin Real.tanh) st v
        (Call.prepare sr :: Call.noteOn frequency velocity :: List.replicate n Call.process) =
      velocity * v.air * (1 - Real.exp (-(n : ℝ) / (0.030 * sr))) := by
  have h := attack_level n st ((v.prepare sr).noteOn frequency velocity) (by
    simpa [BreathLeadVoice.prepare, BreathLeadVoice.noteOn] using hT)
  have hrun : levelAfter (CMath.mk Real.exp Real.sin Real.tanh) st v
        (Call.prepare sr :: Call.noteOn frequency velocity :: List.replicate n Call.process) =
      levelAfter (CMath.mk Real.exp Real.sin Real.tanh) st
        ((v.prepare sr).noteOn frequency velocity) (List.replicate n Call.process) := by
    simp only [levelAfter, run]
  have hexp : Real.exp (-1 / (30 * 0.001 * sr)) ^ n = Real.exp (-(n : ℝ) / (0.030 * sr)) := by
    rw [← Real.exp_nat_mul]
    congr 1
    ring
  have e1 : ((v.prepare sr).noteOn frequency velocity).envelope.target = velocity * v.air := rfl
  have e2 : ((v.prepare sr).noteOn frequency velocity).envelope.level = 0 := rfl
  have e3 : ((v.prepare sr).noteOn frequency velocity).sampleRate = sr := rfl
  rw [e1, e2, e3, hexp] at h
  rw [hrun]
  linarith

/-- C5. After `prepare(sr)` with `sr > 0` and `noteOn(f, v)` with target `T = v * air > 0`,
the envelope level after `n` consecutive `process` calls is `T * (1 - exp(-n / (0.030 * sr)))`.
In particular, for `prepare(48000)`, `air = 0.5`, `noteOn(440, 1.0)` and `n = 1440`, the level
is within 5% of `0.632 * 0.5`. -/
theorem C5_attack_closed_form :
    (∀ (st : Statics ℝ) (v : BreathLeadVoice ℝ) (sr frequency velocity : ℝ) (n : ℕ),
        0 < sr → 0 < velocity * v.air →
        levelAfter (CMath.mk Real.exp Real.sin Real.tanh) st v
            (Call.prepare sr :: Call.noteOn frequency velocity ::
              List.replicate n Call.process) =
          velocity * v.air * (1 - Real.exp (-(n : ℝ) / (0.030 * sr)))) ∧
      ∀ (st : Statics ℝ) (v : BreathLeadVoice ℝ), v.air = 0.5 →
        |levelAfter (CMath.mk Real.exp Real.sin Real.tanh) st v
            (Call.prepare 48000 :: Call.noteOn 440 1.0 :: List.replicate 1440 Call.process) -
          0.632 * 0.5| ≤ 0.05 * (0.632 * 0.5) := by
  refine ⟨fun st v sr frequency velocity n _ hT =>
    levelAfter_prepare_noteOn st v sr frequency velocity n hT, fun st v hair => ?_⟩
  rw [levelAfter_prepare_noteOn st v 48000 440 1.0 1440 (by rw [hair]; norm_num), hair]
  have he : Real.exp (-((1440 : ℕ) : ℝ) / (0.030 * 48000)) = Real.exp (-1) := by
    congr 1
    norm_num
  rw [he, abs_le]
  have h1 := exp_neg_one_gt
  have h2 := exp_neg_one_lt
  constructor <;> nlinarith

theorem C5_attack_closed_form_witness :
    ((0 : ℝ) < 48000 ∧ (0 : ℝ) < 1 * (BreathLeadVoice.init : BreathLeadVoice ℝ).air ∧
        levelAfter (CMath.mk Real.exp Real.sin Real.tanh) Statics.init BreathLeadVoice.init
            (Call.prepare 48000 :: Call.noteOn 440 1 :: List.replicate 3 Call.process) =
          1 * (BreathLeadVoice.init : BreathLeadVoice ℝ).air *
            (1 - Real.exp (-((3 : ℕ) : ℝ) / (0.030 * 48000)))) ∧
      (BreathLeadVoice.init : BreathLeadVoice ℝ).air = 0.5 ∧
      |levelAfter (CMath.mk Real.exp Real.sin Real.tanh) Statics.init BreathLeadVoice.init
          (Call.prepare 48000 :: Call.noteOn 440 1.0 :: List.replicate 1440 Call.process) -
        0.632 * 0.5| ≤ 0.05 * (0.632 * 0.5) :=
  ⟨⟨by norm_num, by norm_num [BreathLeadVoice.init],
      C5_attack_closed_form.1 Statics.init BreathLeadVoice.init 48000 440 1 3 (by norm_num)
        (by norm_num [BreathLeadVoice.init])⟩,
    rfl, C5_attack_closed_form.2 Statics.init BreathLeadVoice.init rfl⟩

theorem levelAfter_noteOff (st : Statics ℝ) (v : BreathLeadVoice ℝ) (n : ℕ)
    (hL : 0 ≤ v.envelope.level) :
    levelAfter (CMath.mk Real.exp Real.sin Real.tanh) st v
        (Call.noteOff :: List.replicate n Call.process) =
      v.envelope.level * Real.exp (-1 / (120 * 0.001 * v.sampleRate)) ^ n := by
  have h := release_level n st v.noteOff rfl hL
  have hrun : levelAfter (CMath.mk Real.exp Real.sin Real.tanh) st v
        (Call.noteOff :: List.replicate n Call.process) =
      levelAfter (CMath.mk Real.exp Real.sin Real.tanh) st v.noteOff
        (List.replicate n Call.process) := by
    simp only [levelAfter, run]
  rw [hrun, h]
  simp only [BreathLeadVoice.noteOff]

theorem release_coef_48000_pow :
    Real.exp (-1 / (120 * 0.001 * (48000 : ℝ))) ^ 5760 = Real.exp (-1) := by
  rw [← Real.exp_nat_mul]
  congr 1
  norm_num

/-- C6, as the code has it. At sample rate 48000, for every voice whose envelope level is
`L > 0` when `noteOff()` is called, after 5760 further `process` calls (120 ms, one release
time constant) the envelope level is `L * exp(-1)`: above `0.36 * L` and at most `0.37 * L`. -/
theorem C6_noteOff_one_time_constant (st : Statics ℝ) (v : BreathLeadVoice ℝ)
    (hsr : v.sampleRate = 48000) (hL : 0 < v.envelope.level) :
    levelAfter (CMath.mk Real.exp Real.sin Real.tanh) st v
        (Call.noteOff :: List.replicate 5760 Call.process) =
      v.envelope.level * Real.exp (-1) ∧
    levelAfter (CMath.mk Real.exp Real.sin Real.tanh) st v
        (Call.noteOff :: List.replicate 5760 Call.process) ≤ 0.37 * v.envelope.level ∧
    0.36 * v.envelope.level <
      levelAfter (CMath.mk Real.exp Real.sin Real.tanh) st v
        (Call.noteOff :: List.replicate 5760 Call.process) := by
  rw [levelAfter_noteOff st v 5760 hL.le, hsr, release_coef_48000_pow]
  have h1 := exp_neg_one_gt
  have h2 := exp_neg_one_lt
  refine ⟨rfl, ?_, ?_⟩ <;> nlinarith

theorem C6_noteOff_one_time_constant_witness :
    ((steadyVoice : BreathLeadVoice ℝ).sampleRate = 48000 ∧
        0 < (steadyVoice : BreathLeadVoice ℝ).envelope.level) ∧
      (levelAfter (CMath.mk Real.exp Real.sin Real.tanh) Statics.init steadyVoice
          (Call.noteOff :: List.replicate 5760 Call.process) =
        (steadyVoice : BreathLeadVoice ℝ).envelope.level * Real.exp (-1) ∧
      levelAfter (CMath.mk Real.exp Real.sin Real.tanh) Statics.init steadyVoice
          (Call.noteOff :: List.replicate 5760 Call.process) ≤
        0.37 * (steadyVoice : BreathLeadVoice ℝ).envelope.level ∧
      0.36 * (steadyVoice : BreathLeadVoice ℝ).envelope.level <
        levelAfter (CMath.mk Real.exp Real.sin Real.tanh) Statics.init steadyVoice
          (Call.noteOff :: List.replicate 5760 Call.process)) :=
  ⟨⟨rfl, by norm_num [steadyVoice]⟩,
    C6_noteOff_one_time_constant Statics.init steadyVoice rfl (by norm_num [steadyVoice])⟩

/-- C6 as stated fails: the steady voice (sample rate 48000, envelope level 0.5) still has a
level above `0.01 * 0.5` after `noteOff()` and 5760 `process` calls. -/
theorem C6_noteOff_counterexample :
    (steadyVoice : BreathLeadVoice ℝ).sampleRate = 48000 ∧
      0 < (steadyVoice : BreathLeadVoice ℝ).envelope.level ∧
      ¬ levelAfter (CMath.mk Real.exp Real.sin Real.tanh) Statics.init steadyVoice
          (Call.noteOff :: List.replicate 5760 Call.process) ≤
        0.01 * (steadyVoice : BreathLeadVoice ℝ).envelope.level := by
  have hl : (steadyVoice : BreathLeadVoice ℝ).envelope.level = 0.5 := rfl
  have hs : (steadyVoice : BreathLeadVoice ℝ).sampleRate = 48000 := rfl
  refine ⟨hs, by rw [hl]; norm_num, ?_⟩
  rw [levelAfter_noteOff Statics.init steadyVoice 5760 (by rw [hl]; norm_num), hs,
    release_coef_48000_pow, hl]
  have h1 := exp_neg_one_gt
  intro h
  nlinarith

/-- C7. For every sample rate `sr > 0` and every voice whose envelope level is `L ≥ 0` when
`noteOff()` is called, with no further note event the level after each subsequent `process`
call is non-negative and no greater than the level before it, and after every
`n ≥ 5 * 0.120 * sr` `process` calls the level is below `0.01 * L` when `L > 0`. -/
theorem C7_idle_convergence (st : Statics ℝ) (v : BreathLeadVoice ℝ)
    (hsr : 0 < v.sampleRate) (hL : 0 ≤ v.envelope.level) :
    (∀ k : ℕ,
        0 ≤ levelAfter (CMath.mk Real.exp Real.sin Real.tanh) st v
            (Call.noteOff :: List.replicate (k + 1) Call.process) ∧
          levelAfter (CMath.mk Real.exp Real.sin Real.tanh) st v
              (Call.noteOff :: List.replicate (k + 1) Call.process) ≤
            levelAfter (CMath.mk Real.exp Real.sin Real.tanh) st v
              (Call.noteOff :: List.replicate k Call.process)) ∧
      ∀ n : ℕ, 5 * 0.120 * v.sampleRate ≤ (n : ℝ) → 0 < v.envelope.level →
        levelAfter (CMath.mk Real.exp Real.sin Real.tanh) st v
            (Call.noteOff :: List.replicate n Call.process) <
          0.01 * v.envelope.level := by
  have hx : 0 < 120 * 0.001 * v.sampleRate := by positivity
  have r0 := exp_coef_pos (120 * 0.001 * v.sampleRate)
  have r1 := exp_coef_lt_one hx
  constructor
  · intro k
    rw [levelAfter_noteOff st v (k + 1) hL, levelAfter_noteOff st v k hL, pow_succ]
    have hk : 0 ≤ v.envelope.level * Real.exp (-1 / (120 * 0.001 * v.sampleRate)) ^ k :=
      mul_nonneg hL (pow_pos r0 k).le
    constructor
    · nlinarith
    · nlinarith
  · intro n hn hpos
    rw [levelAfter_noteOff st v n hL, ← Real.exp_nat_mul]
    have hle : (n : ℝ) * (-1 / (120 * 0.001 * v.sampleRate)) ≤ -5 := by
      rw [mul_div_assoc', div_le_iff₀ hx]
      nlinarith
    have h5 := lt_of_le_of_lt (Real.exp_le_exp.mpr hle) exp_neg_five_lt
    nlinarith

theorem C7_idle_convergence_witness :
    ((0 : ℝ) < (steadyVoice : BreathLeadVoice ℝ).sampleRate ∧
        0 ≤ (steadyVoice : BreathLeadVoice ℝ).envelope.level ∧
        5 * 0.120 * (steadyVoice : BreathLeadVoice ℝ).sampleRate ≤ ((28800 : ℕ) : ℝ)) ∧
      (0 ≤ levelAfter (CMath.mk Real.exp Real.sin Real.tanh) Statics.init steadyVoice
            (Call.noteOff :: List.replicate (0 + 1) Call.process) ∧
          levelAfter (CMath.mk Real.exp Real.sin Real.tanh) Statics.init steadyVoice
              (Call.noteOff :: List.replicate (0 + 1) Call.process) ≤
            levelAfter (CMath.mk Real.exp Real.sin Real.tanh) Statics.init steadyVoice
              (Call.noteOff :: List.replicate 0 Call.process)) ∧
      levelAfter (CMath.mk Real.exp Real.sin Real.tanh) Statics.init steadyVoice
          (Call.noteOff :: List.replicate 28800 Call.process) <
        0.01 * (steadyVoice : BreathLeadVoice ℝ).envelope.level :=
  have hs : (0 : ℝ) < (steadyVoice : BreathLeadVoice ℝ).sampleRate := by
    norm_num [steadyVoice, BreathLeadVoice.init]
  have hl : (0 : ℝ) ≤ (steadyVoice : BreathLeadVoice ℝ).envelope.level := by
    norm_num [steadyVoice]
  have hn :
      5 * 0.120 * (steadyVoice : BreathLeadVoice ℝ).sampleRate ≤ ((28800 : ℕ) : ℝ) := by
    norm_num [steadyVoice, BreathLeadVoice.init]
  ⟨⟨hs, hl, hn⟩, (C7_idle_convergence Statics.init steadyVoice hs hl).1 0,
    (C7_idle_convergence Statics.init steadyVoice hs hl).2 28800 hn
      (by norm_num [steadyVoice])⟩

/-! ## The stages of `process` and the shared static registers (C8 to C10) -/

theorem fin8_add_ne (i : Fin 8) : i + 1 ≠ i ∧ i + 3 ≠ i ∧ i + 5 ≠ i ∧ i + 7 ≠ i := by
  revert i
  decide

theorem pink_fst {F : Type} [LinearOrderedField F] (g : NoiseGenerator) (st : Statics F) :
    (g.pink st).1 =
      (0.55000 * st.b (st.idx + 1) + (g.white F).1 + st.b (st.idx + 3) + st.b (st.idx + 5) +
        st.b (st.idx + 7) + st.b (st.idx + 1)) * 0.2 := by
  obtain ⟨h1, h3, h5, h7⟩ := fin8_add_ne st.idx
  simp only [NoiseGenerator.pink, Function.update_same, Function.update_noteq h1,
    Function.update_noteq h3, Function.update_noteq h5, Function.update_noteq h7]

theorem pink_statics {F : Type} [LinearOrderedField F] (g : NoiseGenerator) (st : Statics F) :
    (g.pink st).2.2 =
      { b := Function.update st.b st.idx (0.55000 * st.b (st.idx + 1) + (g.white F).1)
        idx := st.idx + 1
        tiltState := st.tiltState } := by
  obtain ⟨h1, h3, h5, h7⟩ := fin8_add_ne st.idx
  simp only [NoiseGenerator.pink, Function.update_same, Function.update_noteq h1,
    Function.update_noteq h3, Function.update_noteq h5, Function.update_noteq h7,
    Function.update_idem]

theorem process_outL {F : Type} [LinearOrderedField F] (m : CMath F) (st : Statics F)
    (v : BreathLeadVoice F) :
    (v.process m st).outL =
      m.tanh (soft_saturate (v.tilted m st * (0.5 + v.resistance * 0.5) *
        (v.envelope.setTarget m v.envelope.target v.sampleRate 30 120).level * 2)) * 0.7 := by
  cases v
  cases st
  rfl

theorem process_outR {F : Type} [LinearOrderedField F] (m : CMath F) (st : Statics F)
    (v : BreathLeadVoice F) :
    (v.process m st).outR = (v.process m st).outL := by
  cases v
  cases st
  rfl

theorem process_statics {F : Type} [LinearOrderedField F] (m : CMath F) (st : Statics F)
    (v : BreathLeadVoice F) :
    (v.process m st).statics =
      { b := (v.excite m st).2.2.b
        idx := (v.excite m st).2.2.idx
        tiltState := v.tiltNext m st } := by
  cases v
  cases st
  rfl


theorem white_12345 :
    NoiseGenerator.white ℝ ⟨12345⟩ = (-7514127 / 8388608, ⟨2021368500568277588⟩) := by
  have h : (2021368500568277588 >>> 32 &&& 16777215 : ℕ) = 874481 := by decide
  simp only [NoiseGenerator.white]
  norm_num [h]

theorem white_seed1 :
    NoiseGenerator.white ℝ ⟨2021368500568277588⟩ =
      (3679543 / 4194304, ⟨4895494634720187923⟩) := by
  have h : (4895494634720187923 >>> 32 &&& 16777215 : ℕ) = 15747694 := by decide
  simp only [NoiseGenerator.white]
  norm_num [h]

theorem clamp_mem {F : Type} [LinearOrderedField F] (x lo hi : F) (h : lo ≤ hi) :
    lo ≤ clamp x lo hi ∧ clamp x lo hi ≤ hi := by
  unfold clamp
  split_ifs with h1 h2
  · exact ⟨le_refl _, h⟩
  · exact ⟨h, le_refl _⟩
  · exact ⟨not_lt.mp h1, not_lt.mp h2⟩

theorem soundingVoice_excite_fst (st : Statics ℝ) :
    ((soundingVoice : BreathLeadVoice ℝ).excite (CMath.mk Real.exp Real.sin Real.tanh) st).1 =
      (-7514127 / 8388608 * 0.5 +
        (0.55000 * st.b (st.idx + 1) + 3679543 / 4194304 + st.b (st.idx + 3) +
          st.b (st.idx + 5) + st.b (st.idx + 7) + st.b (st.idx + 1)) * 0.2 * 0.5) * 0.5 +
      Real.sin (440 / 48000 * 6.28318) * 0.1 := by
  simp only [BreathLeadVoice.excite, soundingVoice, BreathLeadVoice.noteOn,
    BreathLeadVoice.prepare, BreathLeadVoice.init, Excitation.init, NoiseGenerator.init,
    Excitation.process, NoiseGenerator.blend, pink_fst, white_12345, white_seed1]
  have hc : clamp (0.5 : ℝ) 0 1 = 0.5 := by
    unfold clamp
    norm_num
  rw [hc]
  norm_num

theorem soundingVoice_excite_statics (st : Statics ℝ) :
    ((soundingVoice : BreathLeadVoice ℝ).excite (CMath.mk Real.exp Real.sin Real.tanh) st).2.2 =
      { b := Function.update st.b st.idx (0.55000 * st.b (st.idx + 1) + 3679543 / 4194304)
        idx := st.idx + 1
        tiltState := st.tiltState } := by
  simp only [BreathLeadVoice.excite, soundingVoice, BreathLeadVoice.noteOn,
    BreathLeadVoice.prepare, BreathLeadVoice.init, Excitation.init, NoiseGenerator.init,
    Excitation.process, NoiseGenerator.blend, pink_statics, white_12345, white_seed1]

theorem tunedFormant_f_mem {F : Type} [LinearOrderedField F] (m : CMath F)
    (v : BreathLeadVoice F) :
    0.001 ≤ (v.tunedFormant m).f ∧ (v.tunedFormant m).f ≤ 0.4 := by
  simp only [BreathLeadVoice.tunedFormant, BandpassFilter.setFrequency, BandpassFilter.setQ]
  exact clamp_mem _ _ _ (by norm_num)

theorem soundingVoice_resonated (st : Statics ℝ) :
    (soundingVoice : BreathLeadVoice ℝ).resonated (CMath.mk Real.exp Real.sin Real.tanh) st =
      ((soundingVoice : BreathLeadVoice ℝ).tunedFormant
          (CMath.mk Real.exp Real.sin Real.tanh)).f ^ 2 *
        ((soundingVoice : BreathLeadVoice ℝ).excite (CMath.mk Real.exp Real.sin Real.tanh) st).1 *
        5.994 := by
  have hq : clamp (1 + 0.5 * 4 : ℝ) 0.5 10 = 3 := by
    unfold clamp
    norm_num
  have h1 : ((soundingVoice : BreathLeadVoice ℝ).tunedFormant
      (CMath.mk Real.exp Real.sin Real.tanh)).s1 = 0 := rfl
  have h2 : ((soundingVoice : BreathLeadVoice ℝ).tunedFormant
      (CMath.mk Real.exp Real.sin Real.tanh)).s2 = 0 := rfl
  have h3 : ((soundingVoice : BreathLeadVoice ℝ).tunedFormant
      (CMath.mk Real.exp Real.sin Real.tanh)).q = 3 := by
    rw [← hq]
    rfl
  simp only [BreathLeadVoice.resonated, BandpassFilter.process, h1, h2, h3]
  ring

theorem soundingVoice_env :
    ((soundingVoice : BreathLeadVoice ℝ).envelope.setTarget
        (CMath.mk Real.exp Real.sin Real.tanh) (soundingVoice : BreathLeadVoice ℝ).envelope.target
        (soundingVoice : BreathLeadVoice ℝ).sampleRate 30 120).level =
      0.5 * (1 - Real.exp (-1 / (30 * 0.001 * 48000))) := by
  simp only [soundingVoice, BreathLeadVoice.noteOn, BreathLeadVoice.prepare,
    BreathLeadVoice.init, AirEnvelope.setTarget]
  norm_num



theorem real_tanh_injective : Function.Injective Real.tanh := by
  intro x y h
  rw [Real.tanh_eq_sinh_div_cosh, Real.tanh_eq_sinh_div_cosh,
    div_eq_div_iff (Real.cosh_pos x).ne' (Real.cosh_pos y).ne'] at h
  have h0 : Real.sinh (x - y) = 0 := by
    rw [Real.sinh_sub]
    linarith
  have : x - y = 0 := Real.sinh_injective (by rw [h0, Real.sinh_zero])
  linarith

theorem soft_saturate_of_abs_lt_one {F : Type} [LinearOrderedField F] {x : F} (h : |x| < 1) :
    soft_saturate x = x := by
  simp only [soft_saturate, if_pos h]

theorem tanh_soft_saturate_inj {x y : ℝ} (hx : |x| < 1) (hy : |y| < 1)
    (h : Real.tanh (soft_saturate x) * 0.7 = Real.tanh (soft_saturate y) * 0.7) : x = y := by
  have h' := real_tanh_injective (mul_right_cancel₀ (by norm_num) h)
  rwa [soft_saturate_of_abs_lt_one hx, soft_saturate_of_abs_lt_one hy] at h'

theorem soundingVoice_statics_after :
    ((soundingVoice : BreathLeadVoice ℝ).process (CMath.mk Real.exp Real.sin Real.tanh)
        Statics.init).statics =
      { b := Function.update (fun _ => 0) 0 (3679543 / 4194304)
        idx := 1
        tiltState := (soundingVoice : BreathLeadVoice ℝ).tiltNext
          (CMath.mk Real.exp Real.sin Real.tanh) Statics.init } := by
  rw [process_statics, soundingVoice_excite_statics]
  simp only [Statics.init]
  norm_num

theorem soundingVoice_excite_after (t : ℝ) :
    ((soundingVoice : BreathLeadVoice ℝ).excite (CMath.mk Real.exp Real.sin Real.tanh)
        { b := Function.update (fun _ => 0) 0 (3679543 / 4194304), idx := 1,
          tiltState := t }).1 =
      ((soundingVoice : BreathLeadVoice ℝ).excite (CMath.mk Real.exp Real.sin Real.tanh)
        Statics.init).1 + 3679543 / 83886080 := by
  rw [soundingVoice_excite_fst, soundingVoice_excite_fst]
  simp only [Statics.init, Function.update_apply,
    eq_false (by decide : ¬ ((1 : Fin 8) + 1 = 0)),
    eq_false (by decide : ¬ ((1 : Fin 8) + 3 = 0)),
    eq_false (by decide : ¬ ((1 : Fin 8) + 5 = 0)), eq_true (by decide : (1 : Fin 8) + 7 = 0),
    if_true, if_false]
  ring

theorem soundingVoice_excite_bounds :
    -0.29 ≤ ((soundingVoice : BreathLeadVoice ℝ).excite (CMath.mk Real.exp Real.sin Real.tanh)
        Statics.init).1 ∧
      ((soundingVoice : BreathLeadVoice ℝ).excite (CMath.mk Real.exp Real.sin Real.tanh)
        Statics.init).1 < -0.17 := by
  rw [soundingVoice_excite_fst]
  simp only [Statics.init]
  have hs0 := Real.neg_one_le_sin (440 / 48000 * 6.28318)
  have hs1 : Real.sin (440 / 48000 * 6.28318) < 440 / 48000 * 6.28318 :=
    Real.sin_lt (by norm_num)
  constructor <;> norm_num at hs1 ⊢ <;> linarith

theorem tilt_carry_monomials (f e E : ℝ) (hf0 : 0.001 ≤ f) (hf1 : f ≤ 0.4) (he0 : -0.29 ≤ e)
    (he1 : e < -0.17) (hE0 : 0 < E) (hE1 : E < 1) :
    (-0.0464 ≤ f ^ 2 * e - f ^ 2 * e * E ∧ f ^ 2 * e - f ^ 2 * e * E ≤ 0) ∧
      (0 < f ^ 2 - f ^ 2 * E ∧ f ^ 2 - f ^ 2 * E ≤ 0.16) := by
  have hf : 0 < f := by linarith
  have hu0 : 0 < f ^ 2 := pow_pos hf 2
  have hu1 : f ^ 2 ≤ 0.16 := by
    linarith [mul_nonneg (sub_nonneg.mpr hf1) (by linarith : (0 : ℝ) ≤ 0.4 + f)]
  have hw0 : 0 < f ^ 2 * (1 - E) := mul_pos hu0 (sub_pos.mpr hE1)
  have hw1 : 0 ≤ f ^ 2 * E := mul_nonneg hu0.le hE0.le
  have hz0 : 0 ≤ f ^ 2 * (1 - E) * (e + 0.29) := mul_nonneg hw0.le (by linarith)
  have hz1 : 0 ≤ f ^ 2 * (1 - E) * (-e) := mul_nonneg hw0.le (by linarith)
  refine ⟨⟨?_, ?_⟩, ?_, ?_⟩ <;> linarith

theorem tilt_carry_arith (f e E : ℝ) (hf0 : 0.001 ≤ f) (hf1 : f ≤ 0.4) (he0 : -0.29 ≤ e)
    (he1 : e < -0.17) (hE0 : 0 < E) (hE1 : E < 1) :
    Real.tanh (soft_saturate
        ((0 + (f ^ 2 * e * 5.994 - 0) * (1 - 0.9745) + f ^ 2 * e * 5.994 * (1 - 0.9745)) *
          (0.5 + 0.5 * 0.5) * (0.5 * (1 - E)) * 2)) * 0.7 ≠
      Real.tanh (soft_saturate
        ((0 + (f ^ 2 * e * 5.994 - 0) * (1 - 0.9745) +
            (f ^ 2 * (e + 3679543 / 83886080) * 5.994 -
              (0 + (f ^ 2 * e * 5.994 - 0) * (1 - 0.9745))) * (1 - 0.9745) +
            f ^ 2 * (e + 3679543 / 83886080) * 5.994 * (1 - 0.9745)) *
          (0.5 + 0.5 * 0.5) * (0.5 * (1 - E)) * 2)) * 0.7 := by
  obtain ⟨⟨hy0, hy1⟩, hw0, hw1⟩ := tilt_carry_monomials f e E hf0 hf1 he0 he1 hE0 hE1
  have hx : ((0 + (f ^ 2 * e * 5.994 - 0) * (1 - 0.9745) + f ^ 2 * e * 5.994 * (1 - 0.9745)) *
          (0.5 + 0.5 * 0.5) * (0.5 * (1 - E)) * 2) =
        0.2292705 * (f ^ 2 * e - f ^ 2 * e * E) := by
    ring
  have hx2 : ((0 + (f ^ 2 * e * 5.994 - 0) * (1 - 0.9745) +
            (f ^ 2 * (e + 3679543 / 83886080) * 5.994 -
              (0 + (f ^ 2 * e * 5.994 - 0) * (1 - 0.9745))) * (1 - 0.9745) +
            f ^ 2 * (e + 3679543 / 83886080) * 5.994 * (1 - 0.9745)) *
          (0.5 + 0.5 * 0.5) * (0.5 * (1 - E)) * 2) =
        0.2292705 * (f ^ 2 * e - f ^ 2 * e * E) +
          0.11463525 * ((f ^ 2 - f ^ 2 * E) * (0.9745 * e + 3679543 / 41943040)) := by
    ring
  rw [hx, hx2]
  have hD : 0.9745 * e + 3679543 / 41943040 < 0 := by linarith
  have hneg : (f ^ 2 - f ^ 2 * E) * (0.9745 * e + 3679543 / 41943040) < 0 :=
    mul_neg_of_pos_of_neg hw0 hD
  have hb : -0.2 ≤ (f ^ 2 - f ^ 2 * E) * (0.9745 * e + 3679543 / 41943040) := by
    have h1 : (f ^ 2 - f ^ 2 * E) * (0.9745 * e + 3679543 / 41943040) =
        0.9745 * (f ^ 2 * e - f ^ 2 * e * E) + 3679543 / 41943040 * (f ^ 2 - f ^ 2 * E) := by
      ring
    rw [h1]
    linarith
  intro h
  have h' := tanh_soft_saturate_inj
    (by rw [abs_lt]; constructor <;> linarith)
    (by rw [abs_lt]; constructor <;> linarith) h
  linarith

theorem soundingVoice_out_differs :
    ((soundingVoice : BreathLeadVoice ℝ).process (CMath.mk Real.exp Real.sin Real.tanh)
        Statics.init).outL ≠
      ((soundingVoice : BreathLeadVoice ℝ).process (CMath.mk Real.exp Real.sin Real.tanh)
        ((soundingVoice : BreathLeadVoice ℝ).process (CMath.mk Real.exp Real.sin Real.tanh)
          Statics.init).statics).outL := by
  have hc : (soundingVoice : BreathLeadVoice ℝ).tiltCoef = 0.9745 := by
    norm_num [BreathLeadVoice.tiltCoef, soundingVoice, BreathLeadVoice.noteOn,
      BreathLeadVoice.prepare, BreathLeadVoice.init]
  have hr : (soundingVoice : BreathLeadVoice ℝ).resistance = 0.5 := rfl
  obtain ⟨hf0, hf1⟩ := tunedFormant_f_mem (CMath.mk Real.exp Real.sin Real.tanh)
    (soundingVoice : BreathLeadVoice ℝ)
  obtain ⟨he0, he1⟩ := soundingVoice_excite_bounds
  have hE0 := Real.exp_pos (-1 / (30 * 0.001 * 48000))
  have hE1 : Real.exp (-1 / (30 * 0.001 * 48000)) < 1 := exp_coef_lt_one (by norm_num)
  rw [soundingVoice_statics_after, process_outL, process_outL]
  simp only [BreathLeadVoice.tilted, BreathLeadVoice.tiltNext, soundingVoice_resonated,
    soundingVoice_excite_after, soundingVoice_env, hc, hr]
  generalize ((soundingVoice : BreathLeadVoice ℝ).tunedFormant
    (CMath.mk Real.exp Real.sin Real.tanh)).f = f at hf0 hf1 ⊢
  generalize ((soundingVoice : BreathLeadVoice ℝ).excite (CMath.mk Real.exp Real.sin Real.tanh)
    Statics.init).1 = e at he0 he1 ⊢
  generalize Real.exp (-1 / (30 * 0.001 * 48000)) = E at hE0 hE1 ⊢
  simp only [Statics.init]
  exact tilt_carry_arith f e E hf0 hf1 he0 he1 hE0 hE1

theorem init_process_statics :
    ((BreathLeadVoice.init : BreathLeadVoice ℝ).process (CMath.mk Real.exp Real.sin Real.tanh)
        Statics.init).statics =
      ((soundingVoice : BreathLeadVoice ℝ).process (CMath.mk Real.exp Real.sin Real.tanh)
        Statics.init).statics := by
  rw [process_statics, process_statics]
  simp only [BreathLeadVoice.tiltNext, BreathLeadVoice.resonated, BreathLeadVoice.excite,
    BreathLeadVoice.tunedFormant, BreathLeadVoice.tiltCoef, soundingVoice,
    BreathLeadVoice.init, BreathLeadVoice.prepare, BreathLeadVoice.noteOn]

/-- C8, evaluated on the code. Two fresh voices `A` and `B` of one program are each given
`prepare(48000)`, `noteOn(440, 1)`, `process`, first `A` and then `B` (the static registers
left by `A` are the ones `B` starts from). The sample written for `B` differs from the sample
written for `A`. -/
theorem C8_same_calls_different_outputs :
    (run (CMath.mk Real.exp Real.sin Real.tanh) Statics.init BreathLeadVoice.init
        [Call.prepare 48000, Call.noteOn 440 1, Call.process]).2.2 ≠
      (run (CMath.mk Real.exp Real.sin Real.tanh)
        (run (CMath.mk Real.exp Real.sin Real.tanh) Statics.init BreathLeadVoice.init
          [Call.prepare 48000, Call.noteOn 440 1, Call.process]).1
        BreathLeadVoice.init [Call.prepare 48000, Call.noteOn 440 1, Call.process]).2.2 := by
  have h := soundingVoice_out_differs
  unfold soundingVoice at h
  intro heq
  simp only [run, List.cons.injEq, Prod.mk.injEq, and_true] at heq
  exact h heq.1

/-- C9, evaluated on the code. `B` is a sounding voice (`prepare(48000)`, `noteOn(440, 1)`), `A`
is another, idle, fresh voice of the same program. The sample that the next `process` call on
`B` writes is not the same after one `process` call on `A` as without it. -/
theorem C9_other_voice_changes_output :
    (run (CMath.mk Real.exp Real.sin Real.tanh) Statics.init soundingVoice [Call.process]).2.2 ≠
      (run (CMath.mk Real.exp Real.sin Real.tanh)
        (run (CMath.mk Real.exp Real.sin Real.tanh) Statics.init BreathLeadVoice.init
          [Call.process]).1
        soundingVoice [Call.process]).2.2 := by
  have h := soundingVoice_out_differs
  rw [← init_process_statics] at h
  intro heq
  simp only [run, List.cons.injEq, Prod.mk.injEq, and_true] at heq
  exact h heq.1

theorem process_voice_formant {F : Type} [LinearOrderedField F] (m : CMath F)
    (st : Statics F) (v : BreathLeadVoice F) :
    (v.process m st).voice.formant = ((v.tunedFormant m).process (v.excite m st).1).2 := by
  cases v
  cases st
  rfl

/-- C11. For every voice state, `process` writes the same value to both channels,
`outL = outR = 0.7 * tanh(soft_saturate(2 * shaped))` with
`shaped = tilted * (0.5 + 0.5 * resistance) * level`, where `level` is the envelope level
after this sample's envelope update and `tilted` is the output of the tilt stage: the updated
tilt register plus `resonated * (1 - tiltCoef)`. -/
theorem C11_process_output {F : Type} [LinearOrderedField F] (m : CMath F) (st : Statics F)
    (v : BreathLeadVoice F) :
    (v.process m st).outL =
        0.7 * m.tanh (soft_saturate (2 * (v.tilted m st * (0.5 + 0.5 * v.resistance) *
          (v.process m st).voice.envelope.level))) ∧
      (v.process m st).outR = (v.process m st).outL ∧
      v.tilted m st =
        (v.process m st).statics.tiltState + v.resonated m st * (1 - (0.95 + v.tone * 0.049)) := by
  refine ⟨?_, process_outR m st v, ?_⟩
  · rw [process_outL, process_voice_envelope, mul_comm (m.tanh _) 0.7]
    have h : v.tilted m st * (0.5 + v.resistance * 0.5) *
          (v.envelope.setTarget m v.envelope.target v.sampleRate 30 120).level * 2 =
        2 * (v.tilted m st * (0.5 + 0.5 * v.resistance) *
          (v.envelope.setTarget m v.envelope.target v.sampleRate 30 120).level) := by
      ring
    rw [h]
  · rw [process_statics]
    rfl

theorem copysign_of_pos {F : Type} [LinearOrderedField F] {mag x : F} (hm : 0 ≤ mag)
    (hx : 0 < x) : copysign mag x = mag := by
  simp only [copysign, if_neg (not_lt.mpr hx.le), abs_of_nonneg hm]

theorem copysign_of_neg {F : Type} [LinearOrderedField F] {mag x : F} (hm : 0 ≤ mag)
    (hx : x < 0) : copysign mag x = -mag := by
  simp only [copysign, if_pos hx, abs_of_nonneg hm]

/-- C12. For every real `x`, `soft_saturate(x)` is `x` when `|x| < 1`, is
`sign(x) * (1 + 0.5 * (|x| - 1))` when `1 ≤ |x| < 2`, and is `sign(x) * 1.5` when `|x| ≥ 2`. -/
theorem C12_soft_saturate_cases (x : ℝ) :
    (|x| < 1 → soft_saturate x = x) ∧
      (1 ≤ |x| → |x| < 2 → soft_saturate x = Real.sign x * (1 + 0.5 * (|x| - 1))) ∧
      (2 ≤ |x| → soft_saturate x = Real.sign x * 1.5) := by
  refine ⟨soft_saturate_of_abs_lt_one, fun h1 h2 => ?_, fun h2 => ?_⟩
  · have hm : (0 : ℝ) ≤ 1 + (|x| - 1) * 0.5 := by linarith
    simp only [soft_saturate, if_neg (not_lt.mpr h1), if_pos h2]
    rcases lt_or_le x 0 with hx | hx
    · rw [copysign_of_neg hm hx, Real.sign_of_neg hx]
      ring
    · have hx' : 0 < x := by
        rcases hx.lt_or_eq with h | h
        · exact h
        · rw [← h, abs_zero] at h1
          norm_num at h1
      rw [copysign_of_pos hm hx', Real.sign_of_pos hx']
      ring
  · have h1 : (1 : ℝ) ≤ |x| := by linarith
    simp only [soft_saturate, if_neg (not_lt.mpr h1), if_neg (not_lt.mpr h2)]
    rcases lt_or_le x 0 with hx | hx
    · rw [copysign_of_neg (by norm_num) hx, Real.sign_of_neg hx]
      ring
    · have hx' : 0 < x := by
        rcases hx.lt_or_eq with h | h
        · exact h
        · rw [← h, abs_zero] at h1
          norm_num at h1
      rw [copysign_of_pos (by norm_num) hx', Real.sign_of_pos hx']
      ring

theorem C12_soft_saturate_cases_witness :
    (|(0.5 : ℝ)| < 1 ∧ soft_saturate (0.5 : ℝ) = 0.5) ∧
      ((1 : ℝ) ≤ |(-1.5 : ℝ)| ∧ |(-1.5 : ℝ)| < 2 ∧
        soft_saturate (-1.5 : ℝ) = Real.sign (-1.5) * (1 + 0.5 * (|(-1.5 : ℝ)| - 1))) ∧
      ((2 : ℝ) ≤ |(3 : ℝ)| ∧ soft_saturate (3 : ℝ) = Real.sign 3 * 1.5) :=
  have a1 : |(0.5 : ℝ)| < 1 := by rw [abs_lt]; constructor <;> norm_num
  have b1 : (1 : ℝ) ≤ |(-1.5 : ℝ)| := by rw [abs_of_neg (by norm_num)]; norm_num
  have b2 : |(-1.5 : ℝ)| < 2 := by rw [abs_of_neg (by norm_num)]; norm_num
  have c1 : (2 : ℝ) ≤ |(3 : ℝ)| := by rw [abs_of_pos (by norm_num)]; norm_num
  ⟨⟨a1, (C12_soft_saturate_cases 0.5).1 a1⟩,
    ⟨b1, b2, (C12_soft_saturate_cases (-1.5)).2.1 b1 b2⟩,
    ⟨c1, (C12_soft_saturate_cases 3).2.2 c1⟩⟩

/-! ## The resonant filter (C13) -/

theorem clamp_eq_min_max {F : Type} [LinearOrderedField F] (x lo hi : F) (h : lo ≤ hi) :
    clamp x lo hi = min (max x lo) hi := by
  unfold clamp
  split_ifs with h1 h2
  · rw [max_eq_right h1.le, min_eq_left h]
  · rw [max_eq_left (not_lt.mp h1), min_eq_right h2.le]
  · rw [max_eq_left (not_lt.mp h1), min_eq_left (not_lt.mp h2)]

theorem runFilter_range {F : Type} [LinearOrderedField F] (ops : List (FilterOp F)) :
    ∀ bp : BandpassFilter F, (0.001 ≤ bp.f ∧ bp.f ≤ 0.4 ∧ 0.5 ≤ bp.q ∧ bp.q ≤ 10) →
      0.001 ≤ (runFilter bp ops).f ∧ (runFilter bp ops).f ≤ 0.4 ∧
        0.5 ≤ (runFilter bp ops).q ∧ (runFilter bp ops).q ≤ 10 := by
  induction ops with
  | nil => intro bp h; exact h
  | cons op ops ih =>
    intro bp h
    cases op with
    | setFrequency freq sampleRate =>
      exact ih _ ⟨(clamp_mem _ _ _ (by norm_num)).1, (clamp_mem _ _ _ (by norm_num)).2,
        h.2.2.1, h.2.2.2⟩
    | setQ qVal =>
      exact ih _ ⟨h.1, h.2.1, (clamp_mem _ _ _ (by norm_num)).1,
        (clamp_mem _ _ _ (by norm_num)).2⟩
    | process input => exact ih _ h

/-- C13. For every `freq` and every `sampleRate > 0`, `setFrequency(freq, sampleRate)` stores
`f = min(max(freq / sampleRate, 0.001), 0.4)`; for every `qVal`, `setQ(qVal)` stores
`q = min(max(qVal, 0.5), 10)`; neither changes `s1` or `s2`. Hence `0.001 ≤ f ≤ 0.4` and
`0.5 ≤ q ≤ 10` in every state reached from a default-constructed filter by `setFrequency`
(at positive sample rates), `setQ` and `process`. -/
theorem C13_filter_coefficient_range {F : Type} [LinearOrderedField F] :
    (∀ (bp : BandpassFilter F) (freq sampleRate : F), 0 < sampleRate →
        (bp.setFrequency freq sampleRate).f = min (max (freq / sampleRate) 0.001) 0.4 ∧
          (bp.setFrequency freq sampleRate).s1 = bp.s1 ∧
          (bp.setFrequency freq sampleRate).s2 = bp.s2) ∧
      (∀ (bp : BandpassFilter F) (qVal : F),
        (bp.setQ qVal).q = min (max qVal 0.5) 10 ∧ (bp.setQ qVal).s1 = bp.s1 ∧
          (bp.setQ qVal).s2 = bp.s2) ∧
      ∀ ops : List (FilterOp F),
        (∀ freq sampleRate, FilterOp.setFrequency freq sampleRate ∈ ops → 0 < sampleRate) →
        0.001 ≤ (runFilter BandpassFilter.init ops).f ∧
          (runFilter BandpassFilter.init ops).f ≤ 0.4 ∧
          0.5 ≤ (runFilter BandpassFilter.init ops).q ∧
          (runFilter BandpassFilter.init ops).q ≤ 10 := by
  refine ⟨fun bp freq sampleRate _ => ⟨clamp_eq_min_max _ _ _ (by norm_num), rfl, rfl⟩,
    fun bp qVal => ⟨clamp_eq_min_max _ _ _ (by norm_num), rfl, rfl⟩, fun ops _ => ?_⟩
  apply runFilter_range
  simp only [BandpassFilter.init]
  norm_num

theorem C13_filter_coefficient_range_witness :
    ((0 : ℝ) < 48000 ∧
        ((BandpassFilter.init : BandpassFilter ℝ).setFrequency 440 48000).f =
          min (max (440 / 48000) 0.001) 0.4) ∧
      ((∀ freq sampleRate : ℝ, FilterOp.setFrequency freq sampleRate ∈
          [FilterOp.setFrequency 30000 48000, FilterOp.setQ 50, FilterOp.process 1] →
          0 < sampleRate) ∧
        0.001 ≤ (runFilter (BandpassFilter.init : BandpassFilter ℝ)
          [FilterOp.setFrequency 30000 48000, FilterOp.setQ 50, FilterOp.process 1]).f ∧
        (runFilter (BandpassFilter.init : BandpassFilter ℝ)
          [FilterOp.setFrequency 30000 48000, FilterOp.setQ 50, FilterOp.process 1]).f ≤ 0.4 ∧
        0.5 ≤ (runFilter (BandpassFilter.init : BandpassFilter ℝ)
          [FilterOp.setFrequency 30000 48000, FilterOp.setQ 50, FilterOp.process 1]).q ∧
        (runFilter (BandpassFilter.init : BandpassFilter ℝ)
          [FilterOp.setFrequency 30000 48000, FilterOp.setQ 50, FilterOp.process 1]).q ≤ 10) :=
  have hops : ∀ freq sampleRate : ℝ, FilterOp.setFrequency freq sampleRate ∈
      [FilterOp.setFrequency 30000 48000, FilterOp.setQ 50, FilterOp.process 1] →
      0 < sampleRate := by
    intro freq sampleRate h
    simp at h
    rw [h.2]
    norm_num
  ⟨⟨by norm_num, (C13_filter_coefficient_range.1 BandpassFilter.init 440 48000 (by norm_num)).1⟩,
    hops, C13_filter_coefficient_range.2.2 _ hops⟩

/-! ## The noise source (C14 to C17) -/

theorem white_seed {F : Type} [LinearOrderedField F] (g : NoiseGenerator) :
    (g.white F).2.seed = lcgStep g.seed :=
  rfl

theorem white_bits (n : ℕ) : (n >>> 32) &&& 0xFFFFFF = n / 2 ^ 32 % 2 ^ 24 := by
  rw [Nat.shiftRight_eq_div_pow]
  exact Nat.and_pow_two_sub_one_eq_mod (n / 2 ^ 32) 24

theorem white_fst (g : NoiseGenerator) :
    (g.white ℝ).1 = ((lcgStep g.seed / 2 ^ 32 % 2 ^ 24 : ℕ) : ℝ) / 2 ^ 23 - 1 := by
  simp only [NoiseGenerator.white]
  rw [white_bits]
  simp only [lcgStep]
  ring

/-- C14. For every 64-bit seed `s`, `white()` replaces the seed by
`(s * 6364136223846793005 + 1442695040888963407) mod 2^64` and returns `r = k / 2^23 - 1`,
where `k = (newSeed >> 32) & 0xFFFFFF` is a 24-bit integer taken from the new seed; so
`-1 ≤ r ≤ 1`. -/
theorem C14_white_step_and_range (g : NoiseGenerator) (_hs : g.seed < 2 ^ 64) :
    (g.white ℝ).2.seed = (g.seed * 6364136223846793005 + 1442695040888963407) % 2 ^ 64 ∧
      (g.white ℝ).2.seed < 2 ^ 64 ∧
      ((g.white ℝ).2.seed >>> 32) &&& 0xFFFFFF < 2 ^ 24 ∧
      (g.white ℝ).1 = ((((g.white ℝ).2.seed >>> 32) &&& 0xFFFFFF : ℕ) : ℝ) / 2 ^ 23 - 1 ∧
      -1 ≤ (g.white ℝ).1 ∧ (g.white ℝ).1 ≤ 1 := by
  have hk : lcgStep g.seed / 2 ^ 32 % 2 ^ 24 < 2 ^ 24 := Nat.mod_lt _ (by norm_num)
  have hk' : ((lcgStep g.seed / 2 ^ 32 % 2 ^ 24 : ℕ) : ℝ) < 2 ^ 24 := by exact_mod_cast hk
  have h0 : (0 : ℝ) ≤ ((lcgStep g.seed / 2 ^ 32 % 2 ^ 24 : ℕ) : ℝ) := Nat.cast_nonneg _
  refine ⟨rfl, Nat.mod_lt _ (by norm_num), ?_, ?_, ?_, ?_⟩
  · rw [white_seed, white_bits]
    exact hk
  · rw [white_seed, white_bits]
    exact white_fst g
  · rw [white_fst]
    have : (0 : ℝ) ≤ ((lcgStep g.seed / 2 ^ 32 % 2 ^ 24 : ℕ) : ℝ) / 2 ^ 23 := by positivity
    linarith
  · rw [white_fst]
    have : ((lcgStep g.seed / 2 ^ 32 % 2 ^ 24 : ℕ) : ℝ) / 2 ^ 23 ≤ 2 := by
      rw [div_le_iff₀ (by norm_num)]
      norm_num at hk' ⊢
      linarith
    linarith

theorem C14_white_step_and_range_witness :
    (NoiseGenerator.mk 12345).seed < 2 ^ 64 ∧
      ((NoiseGenerator.mk 12345).white ℝ).2.seed =
        ((NoiseGenerator.mk 12345).seed * 6364136223846793005 + 1442695040888963407) % 2 ^ 64 ∧
      ((NoiseGenerator.mk 12345).white ℝ).2.seed < 2 ^ 64 ∧
      (((NoiseGenerator.mk 12345).white ℝ).2.seed >>> 32) &&& 0xFFFFFF < 2 ^ 24 ∧
      ((NoiseGenerator.mk 12345).white ℝ).1 =
        (((((NoiseGenerator.mk 12345).white ℝ).2.seed >>> 32) &&& 0xFFFFFF : ℕ) : ℝ) / 2 ^ 23 -
          1 ∧
      -1 ≤ ((NoiseGenerator.mk 12345).white ℝ).1 ∧ ((NoiseGenerator.mk 12345).white ℝ).1 ≤ 1 :=
  ⟨by decide, C14_white_step_and_range (NoiseGenerator.mk 12345) (by decide)⟩

/-- C15, as the code has it. The 24-bit integer that `white()` maps to its output is
`(newSeed >> 32) & 0xFFFFFF`, bits 32 to 55 of the updated state: any two states whose
successors agree on bits 32 to 55 yield the same `white()` output. -/
theorem C15_white_uses_bits_32_to_55 (g1 g2 : NoiseGenerator)
    (h : lcgStep g1.seed / 2 ^ 32 % 2 ^ 24 = lcgStep g2.seed / 2 ^ 32 % 2 ^ 24) :
    (g1.white ℝ).1 = (g2.white ℝ).1 ∧
      (g1.white ℝ).1 = ((lcgStep g1.seed / 2 ^ 32 % 2 ^ 24 : ℕ) : ℝ) / 2 ^ 23 - 1 := by
  refine ⟨?_, white_fst g1⟩
  rw [white_fst, white_fst, h]

theorem C15_white_uses_bits_32_to_55_witness :
    lcgStep (NoiseGenerator.mk 11066951453180645397).seed / 2 ^ 32 % 2 ^ 24 =
        lcgStep (NoiseGenerator.mk 4509710395729203221).seed / 2 ^ 32 % 2 ^ 24 ∧
      ((NoiseGenerator.mk 11066951453180645397).white ℝ).1 =
        ((NoiseGenerator.mk 4509710395729203221).white ℝ).1 ∧
      ((NoiseGenerator.mk 11066951453180645397).white ℝ).1 =
        ((lcgStep (NoiseGenerator.mk 11066951453180645397).seed / 2 ^ 32 % 2 ^ 24 : ℕ) : ℝ) /
          2 ^ 23 - 1 :=
  ⟨by decide, C15_white_uses_bits_32_to_55 (NoiseGenerator.mk 11066951453180645397)
    (NoiseGenerator.mk 4509710395729203221) (by decide)⟩

/-- C15 as stated fails. The seeds 11066951453180645397 and 14714348890532040725 are updated to
the states 0 and 2^32, which agree on their top 24 bits (`newSeed >> 40` is 0 for both), but
`white()` returns -1 for the first and `1 / 2^23 - 1` for the second. -/
theorem C15_top_bits_counterexample :
    lcgStep (NoiseGenerator.mk 11066951453180645397).seed >>> 40 =
        lcgStep (NoiseGenerator.mk 14714348890532040725).seed >>> 40 ∧
      ((NoiseGenerator.mk 11066951453180645397).white ℝ).1 ≠
        ((NoiseGenerator.mk 14714348890532040725).white ℝ).1 := by
  have h1 : lcgStep 11066951453180645397 / 2 ^ 32 % 2 ^ 24 = 0 := by decide
  have h2 : lcgStep 14714348890532040725 / 2 ^ 32 % 2 ^ 24 = 1 := by decide
  refine ⟨by decide, ?_⟩
  rw [white_fst, white_fst, h1, h2]
  norm_num

/-- C16. For every `t`, `blend(t)` returns `w * (1 - c) + p * c` with `c = min(max(t, 0), 1)`,
`w` the result of one `white()` call and `p` the result of one `pink()` call (which draws one
white sample itself); the seed after `blend(t)` is the linear congruential step applied exactly
twice to the seed before, whatever `t` is. -/
theorem C16_blend_two_draws {F : Type} [LinearOrderedField F] (g : NoiseGenerator)
    (st : Statics F) (t : F) :
    (g.blend st t).1 =
        (g.white F).1 * (1 - min (max t 0) 1) +
          ((g.white F).2.pink st).1 * min (max t 0) 1 ∧
      ((g.white F).2.pink st).2.1 = ((g.white F).2.white F).2 ∧
      (g.blend st t).2.1.seed = lcgStep (lcgStep g.seed) := by
  refine ⟨?_, rfl, rfl⟩
  simp only [NoiseGenerator.blend, clamp_eq_min_max t 0 1 zero_le_one]

theorem pinkAsSpecified_fresh :
    (NoiseGenerator.init.pinkAsSpecified (Statics.init : Statics ℝ)).1 =
      -7514127 / 8388608 := by
  simp only [NoiseGenerator.pinkAsSpecified, NoiseGenerator.init, white_12345, Statics.init,
    Function.update_apply]
  norm_num [eq_false (by decide : ¬ ((3 : Fin 8) = 0)), eq_false (by decide : ¬ ((5 : Fin 8) = 0)),
    eq_false (by decide : ¬ ((7 : Fin 8) = 0)), eq_false (by decide : ¬ ((1 : Fin 8) = 0)),
    eq_false (by decide : ¬ ((5 : Fin 8) = 3)), eq_false (by decide : ¬ ((7 : Fin 8) = 3)),
    eq_false (by decide : ¬ ((1 : Fin 8) = 3)), eq_false (by decide : ¬ ((7 : Fin 8) = 5)),
    eq_false (by decide : ¬ ((1 : Fin 8) = 5)), eq_false (by decide : ¬ ((1 : Fin 8) = 7)),
    eq_false (by decide : ¬ ((3 : Fin 8) = 5)), eq_false (by decide : ¬ ((3 : Fin 8) = 7)),
    eq_false (by decide : ¬ ((3 : Fin 8) = 1)), eq_false (by decide : ¬ ((5 : Fin 8) = 7)),
    eq_false (by decide : ¬ ((5 : Fin 8) = 1)), eq_false (by decide : ¬ ((7 : Fin 8) = 1)),
    eq_false (by decide : ¬ ((0 : Fin 8) = 3)), eq_false (by decide : ¬ ((0 : Fin 8) = 5)),
    eq_false (by decide : ¬ ((0 : Fin 8) = 7)), eq_false (by decide : ¬ ((0 : Fin 8) = 1))]

/-- C17, evaluated on the code. One `pink()` call changes the bank in slot `idx` only, where it
leaves `0.55 * b[idx + 1] + w` (the four earlier stores into `b[idx]` are overwritten), and
advances `idx` by 1 modulo 8. On the fresh generator and bank the taps in slots 1, 3, 5, 7 stay
0 and the returned value is `0.2 * w`, where the specification's `pink` returns `w`. -/
theorem C17_pink_stores_one_slot :
    (∀ (g : NoiseGenerator) (st : Statics ℝ),
        (g.pink st).2.2.b st.idx = 0.55000 * st.b (st.idx + 1) + (g.white ℝ).1 ∧
          (∀ j, j ≠ st.idx → (g.pink st).2.2.b j = st.b j) ∧
          (g.pink st).2.2.idx = st.idx + 1) ∧
      (NoiseGenerator.init.pink (Statics.init : Statics ℝ)).2.2.b 3 = 0 ∧
      (NoiseGenerator.init.pink (Statics.init : Statics ℝ)).1 = 0.2 * (-7514127 / 8388608) ∧
      (NoiseGenerator.init.pink (Statics.init : Statics ℝ)).1 ≠
        (NoiseGenerator.init.pinkAsSpecified (Statics.init : Statics ℝ)).1 := by
  have hfst : (NoiseGenerator.init.pink (Statics.init : Statics ℝ)).1 =
      0.2 * (-7514127 / 8388608) := by
    rw [pink_fst]
    simp only [NoiseGenerator.init, white_12345, Statics.init]
    norm_num
  refine ⟨fun g st => ?_, ?_, hfst, ?_⟩
  · rw [pink_statics]
    exact ⟨Function.update_same _ _ _, fun j hj => Function.update_noteq hj _ _, rfl⟩
  · rw [pink_statics]
    simp only [Statics.init, Function.update_apply,
      eq_false (by decide : ¬ ((3 : Fin 8) = 0)), if_false]
  · rw [hfst, pinkAsSpecified_fresh]
    norm_num

/-! ## The phase accumulators (C18) -/

theorem phase_wrap_mem {F : Type} [LinearOrderedField F] {p d : F} (hp0 : 0 ≤ p) (hp1 : p ≤ 1)
    (hd0 : 0 < d) (hd1 : d < 1) :
    0 ≤ (if p + d > 1 then p + d - 1 else p + d) ∧
      (if p + d > 1 then p + d - 1 else p + d) ≤ 1 := by
  split_ifs with h
  · constructor <;> linarith
  · exact ⟨by linarith, not_lt.mp h⟩

theorem process_voice_phases {F : Type} [LinearOrderedField F] (m : CMath F)
    (st : Statics F) (v : BreathLeadVoice F) :
    (v.process m st).voice.vibratoPhase =
        (if v.vibratoPhase + 6 / v.sampleRate > 1 then v.vibratoPhase + 6 / v.sampleRate - 1
          else v.vibratoPhase + 6 / v.sampleRate) ∧
      (v.process m st).voice.driftPhase =
        (if v.driftPhase + 0.5 / v.sampleRate > 1 then v.driftPhase + 0.5 / v.sampleRate - 1
          else v.driftPhase + 0.5 / v.sampleRate) ∧
      (v.process m st).voice.excitation.phase =
        (if v.excitation.phase + v.freq / v.sampleRate > 1 then
          v.excitation.phase + v.freq / v.sampleRate - 1
          else v.excitation.phase + v.freq / v.sampleRate) ∧
      (v.process m st).voice.freq = v.freq ∧
      (v.process m st).voice.sampleRate = v.sampleRate := by
  cases v
  cases st
  exact ⟨rfl, rfl, rfl, rfl, rfl⟩

theorem voiceAfter_process_succ {F : Type} [LinearOrderedField F] (m : CMath F)
    (st : Statics F) (v : BreathLeadVoice F) (n : ℕ) :
    voiceAfter m st v (List.replicate (n + 1) Call.process) =
      voiceAfter m (v.process m st).statics (v.process m st).voice
        (List.replicate n Call.process) := by
  simp only [voiceAfter, run, List.replicate_succ]

theorem voiceAfter_prepare {F : Type} [LinearOrderedField F] (m : CMath F) (st : Statics F)
    (v : BreathLeadVoice F) (sr : F) (calls : List (Call F)) :
    voiceAfter m st v (Call.prepare sr :: calls) = voiceAfter m st (v.prepare sr) calls := by
  simp only [voiceAfter, run]

/-- The phases stay in `[0, 1]` along `process` calls when each increment lies in `(0, 1)`. -/
theorem phases_mem_Icc {F : Type} [LinearOrderedField F] (m : CMath F) (n : ℕ) :
    ∀ (st : Statics F) (v : BreathLeadVoice F), 8000 ≤ v.sampleRate → 0 < v.freq →
      v.freq < v.sampleRate →
      (0 ≤ v.vibratoPhase ∧ v.vibratoPhase ≤ 1) → (0 ≤ v.driftPhase ∧ v.driftPhase ≤ 1) →
      (0 ≤ v.excitation.phase ∧ v.excitation.phase ≤ 1) →
      (0 ≤ (voiceAfter m st v (List.replicate n Call.process)).vibratoPhase ∧
          (voiceAfter m st v (List.replicate n Call.process)).vibratoPhase ≤ 1) ∧
        (0 ≤ (voiceAfter m st v (List.replicate n Call.process)).driftPhase ∧
          (voiceAfter m st v (List.replicate n Call.process)).driftPhase ≤ 1) ∧
        (0 ≤ (voiceAfter m st v (List.replicate n Call.process)).excitation.phase ∧
          (voiceAfter m st v (List.replicate n Call.process)).excitation.phase ≤ 1) := by
  induction n with
  | zero =>
    intro st v _ _ _ hv hd he
    exact ⟨hv, hd, he⟩
  | succ k ih =>
    intro st v hsr hf0 hf1 hv hd he
    obtain ⟨e1, e2, e3, e4, e5⟩ := process_voice_phases m st v
    have hpos : (0 : F) < v.sampleRate := by linarith
    have d1 : (0 : F) < 6 / v.sampleRate ∧ 6 / v.sampleRate < 1 :=
      ⟨by positivity, by rw [div_lt_one hpos]; linarith⟩
    have d2 : (0 : F) < 0.5 / v.sampleRate ∧ 0.5 / v.sampleRate < 1 :=
      ⟨by positivity, by rw [div_lt_one hpos]; linarith⟩
    have d3 : (0 : F) < v.freq / v.sampleRate ∧ v.freq / v.sampleRate < 1 :=
      ⟨div_pos hf0 hpos, by rw [div_lt_one hpos]; exact hf1⟩
    rw [voiceAfter_process_succ]
    apply ih
    · rw [e5]; exact hsr
    · rw [e4]; exact hf0
    · rw [e4, e5]; exact hf1
    · rw [e1]; exact phase_wrap_mem hv.1 hv.2 d1.1 d1.2
    · rw [e2]; exact phase_wrap_mem hd.1 hd.2 d2.1 d2.2
    · rw [e3]; exact phase_wrap_mem he.1 he.2 d3.1 d3.2

/-- C18, as the code has it. For every sample rate of at least 8000 and every frequency with
`0 < freq < sampleRate`, starting from `prepare` and a zero excitation phase, after every
`process` call the vibrato phase, the drift phase and the excitation phase all lie in the
closed interval `[0, 1]`. -/
theorem C18_phases_in_closed_unit_interval {F : Type} [LinearOrderedField F] (m : CMath F)
    (st : Statics F) (v : BreathLeadVoice F) (sr : F) (n : ℕ) (hsr : 8000 ≤ sr)
    (hf0 : 0 < v.freq) (hf1 : v.freq < sr) (hph : v.excitation.phase = 0) :
    (0 ≤ (voiceAfter m st v
          (Call.prepare sr :: List.replicate (n + 1) Call.process)).vibratoPhase ∧
        (voiceAfter m st v
          (Call.prepare sr :: List.replicate (n + 1) Call.process)).vibratoPhase ≤ 1) ∧
      (0 ≤ (voiceAfter m st v
          (Call.prepare sr :: List.replicate (n + 1) Call.process)).driftPhase ∧
        (voiceAfter m st v
          (Call.prepare sr :: List.replicate (n + 1) Call.process)).driftPhase ≤ 1) ∧
      (0 ≤ (voiceAfter m st v
          (Call.prepare sr :: List.replicate (n + 1) Call.process)).excitation.phase ∧
        (voiceAfter m st v
          (Call.prepare sr :: List.replicate (n + 1) Call.process)).excitation.phase ≤ 1) := by
  rw [voiceAfter_prepare]
  have z1 : (v.prepare sr).vibratoPhase = 0 := rfl
  have z2 : (v.prepare sr).driftPhase = 0 := rfl
  have z3 : (v.prepare sr).excitation.phase = 0 := hph
  exact phases_mem_Icc m (n + 1) st (v.prepare sr) hsr hf0 hf1
    (by rw [z1]; exact ⟨le_refl _, zero_le_one⟩) (by rw [z2]; exact ⟨le_refl _, zero_le_one⟩)
    (by rw [z3]; exact ⟨le_refl _, zero_le_one⟩)

theorem C18_phases_in_closed_unit_interval_witness :
    ((8000 : ℝ) ≤ 48000 ∧ (0 : ℝ) < (BreathLeadVoice.init : BreathLeadVoice ℝ).freq ∧
        (BreathLeadVoice.init : BreathLeadVoice ℝ).freq < 48000 ∧
        (BreathLeadVoice.init : BreathLeadVoice ℝ).excitation.phase = 0) ∧
      (0 ≤ (voiceAfter (CMath.mk Real.exp Real.sin Real.tanh) Statics.init BreathLeadVoice.init
          (Call.prepare 48000 :: List.replicate (7999 + 1) Call.process)).vibratoPhase ∧
        (voiceAfter (CMath.mk Real.exp Real.sin Real.tanh) Statics.init BreathLeadVoice.init
          (Call.prepare 48000 :: List.replicate (7999 + 1) Call.process)).vibratoPhase ≤ 1) ∧
      (0 ≤ (voiceAfter (CMath.mk Real.exp Real.sin Real.tanh) Statics.init BreathLeadVoice.init
          (Call.prepare 48000 :: List.replicate (7999 + 1) Call.process)).driftPhase ∧
        (voiceAfter (CMath.mk Real.exp Real.sin Real.tanh) Statics.init BreathLeadVoice.init
          (Call.prepare 48000 :: List.replicate (7999 + 1) Call.process)).driftPhase ≤ 1) ∧
      (0 ≤ (voiceAfter (CMath.mk Real.exp Real.sin Real.tanh) Statics.init BreathLeadVoice.init
          (Call.prepare 48000 :: List.replicate (7999 + 1) Call.process)).excitation.phase ∧
        (voiceAfter (CMath.mk Real.exp Real.sin Real.tanh) Statics.init BreathLeadVoice.init
          (Call.prepare 48000 :: List.replicate (7999 + 1) Call.process)).excitation.phase ≤ 1) :=
  have h1 : (8000 : ℝ) ≤ 48000 := by norm_num
  have h2 : (0 : ℝ) < (BreathLeadVoice.init : BreathLeadVoice ℝ).freq := by
    norm_num [BreathLeadVoice.init]
  have h3 : (BreathLeadVoice.init : BreathLeadVoice ℝ).freq < 48000 := by
    norm_num [BreathLeadVoice.init]
  ⟨⟨h1, h2, h3, rfl⟩,
    C18_phases_in_closed_unit_interval (CMath.mk Real.exp Real.sin Real.tanh) Statics.init
      BreathLeadVoice.init 48000 7999 h1 h2 h3 rfl⟩

theorem vibratoPhase_linear (m : CMath ℝ) (sr : ℝ) (hpos : 0 < sr) (n : ℕ) :
    ∀ (st : Statics ℝ) (v : BreathLeadVoice ℝ), v.sampleRate = sr →
      v.vibratoPhase + n * (6 / sr) ≤ 1 →
      (voiceAfter m st v (List.replicate n Call.process)).vibratoPhase =
        v.vibratoPhase + n * (6 / sr) := by
  induction n with
  | zero =>
    intro st v _ _
    simp [voiceAfter, run]
  | succ k ih =>
    intro st v hsr hle
    obtain ⟨e1, _, _, _, e5⟩ := process_voice_phases m st v
    push_cast at hle
    have hd : (0 : ℝ) < 6 / sr := by positivity
    have hk : (0 : ℝ) ≤ (k : ℝ) * (6 / sr) := by positivity
    have hstep : (v.process m st).voice.vibratoPhase = v.vibratoPhase + 6 / sr := by
      rw [e1, hsr, if_neg (by linarith)]
    rw [voiceAfter_process_succ, ih _ _ (by rw [e5, hsr]) (by rw [hstep]; linarith), hstep]
    push_cast
    ring

/-- C18 as stated fails. At 12288 Hz the vibrato step `6 / 12288 = 1 / 2048` is a power of
two, so the accumulation is exact in `float` as well: a fresh voice after `prepare(12288)` and
2048 `process` calls has vibrato phase exactly 1 (`1 > 1` does not wrap), which is not in
`[0, 1)`. -/
theorem C18_vibrato_phase_counterexample :
    ((8000 : ℝ) ≤ 12288 ∧ (0 : ℝ) < (BreathLeadVoice.init : BreathLeadVoice ℝ).freq ∧
        (BreathLeadVoice.init : BreathLeadVoice ℝ).freq < 12288 ∧
        (BreathLeadVoice.init : BreathLeadVoice ℝ).excitation.phase = 0) ∧
      (voiceAfter (CMath.mk Real.exp Real.sin Real.tanh) Statics.init BreathLeadVoice.init
        (Call.prepare 12288 :: List.replicate 2048 Call.process)).vibratoPhase = 1 ∧
      ¬ (voiceAfter (CMath.mk Real.exp Real.sin Real.tanh) Statics.init BreathLeadVoice.init
        (Call.prepare 12288 :: List.replicate 2048 Call.process)).vibratoPhase < 1 := by
  have z1 : ((BreathLeadVoice.init : BreathLeadVoice ℝ).prepare 12288).vibratoPhase = 0 := rfl
  have h := vibratoPhase_linear (CMath.mk Real.exp Real.sin Real.tanh) 12288 (by norm_num) 2048
    Statics.init ((BreathLeadVoice.init : BreathLeadVoice ℝ).prepare 12288) rfl
    (by rw [z1]; norm_num)
  rw [z1] at h
  have h1 : (voiceAfter (CMath.mk Real.exp Real.sin Real.tanh) Statics.init
      (BreathLeadVoice.init : BreathLeadVoice ℝ)
      (Call.prepare 12288 :: List.replicate 2048 Call.process)).vibratoPhase = 1 := by
    rw [voiceAfter_prepare, h]
    norm_num
  refine ⟨⟨by norm_num, by norm_num [BreathLeadVoice.init], by norm_num [BreathLeadVoice.init],
    rfl⟩, h1, ?_⟩
  rw [h1]
  exact lt_irrefl 1

/-! ## Stability of the resonant filter (C19) -/

theorem process_zero_input {F : Type} [LinearOrderedField F] (s1 s2 f q : F) :
    ((BandpassFilter.mk s1 s2 f q).process 0).2 =
      { s1 := 0.999 * ((1 - f) * s1 - f * q * s2)
        s2 := 0.999 * (f * (1 - f) * s1 + (1 - f ^ 2 * q) * s2)
        f := f
        q := q } := by
  simp only [BandpassFilter.process, BandpassFilter.mk.injEq, and_true]
  constructor <;> ring

theorem dampedDet_eq (f q : ℝ) : dampedDet f q = 0.998001 * (1 - f) := by
  unfold dampedDet
  ring

theorem f_sq_q_le {f q : ℝ} (hf0 : 0.001 ≤ f) (hf1 : f ≤ 0.4) (hq0 : 0.5 ≤ q) (hq1 : q ≤ 10) :
    0 < f ^ 2 * q ∧ f ^ 2 * q ≤ 1.6 := by
  have hf : 0 < f := by linarith
  have h2 : f ^ 2 ≤ 0.16 := by
    linarith [mul_nonneg (sub_nonneg.mpr hf1) (by linarith : (0 : ℝ) ≤ 0.4 + f)]
  have h3 : 0 ≤ (0.16 - f ^ 2) * q := mul_nonneg (by linarith) (by linarith)
  have h4 : 0 ≤ f ^ 2 * (10 - q) := mul_nonneg (pow_pos hf 2).le (by linarith)
  exact ⟨mul_pos (pow_pos hf 2) (by linarith), by linarith⟩

theorem jury_conditions {f q : ℝ} (hf0 : 0.001 ≤ f) (hf1 : f ≤ 0.4) (hq0 : 0.5 ≤ q)
    (hq1 : q ≤ 10) :
    |dampedDet f q| < 1 ∧ |dampedTrace f q| < 1 + dampedDet f q := by
  obtain ⟨h0, h1⟩ := f_sq_q_le hf0 hf1 hq0 hq1
  rw [dampedDet_eq]
  have ht : dampedTrace f q = 0.999 * (2 - f - f ^ 2 * q) := by
    unfold dampedTrace
    ring
  rw [ht, abs_lt, abs_lt]
  refine ⟨⟨by linarith, by linarith⟩, by linarith, by linarith⟩

/-- A root of `z^2 - T z + D` with real `T`, `D` satisfying the Jury conditions lies strictly
inside the unit circle. -/
theorem jury_root_abs_lt_one {T D : ℝ} (hD : |D| < 1) (hT : |T| < 1 + D) {z : ℂ}
    (hz : z ^ 2 - (T : ℂ) * z + (D : ℂ) = 0) : Complex.abs z < 1 := by
  rw [abs_lt] at hD hT
  have hre := congrArg Complex.re hz
  have him := congrArg Complex.im hz
  simp only [pow_two, Complex.add_re, Complex.sub_re, Complex.mul_re, Complex.ofReal_re,
    Complex.ofReal_im, Complex.add_im, Complex.sub_im, Complex.mul_im, Complex.zero_re,
    Complex.zero_im, zero_mul, sub_zero, add_zero] at hre him
  have hsq : Complex.abs z ^ 2 = z.re * z.re + z.im * z.im := by
    rw [Complex.sq_abs, Complex.normSq_apply]
  have hlt : z.re * z.re + z.im * z.im < 1 := by
    by_cases hy : z.im = 0
    · rw [hy] at hre ⊢
      by_contra hcon
      push_neg at hcon
      rcases le_or_lt 0 z.re with hx | hx
      · have hx1 : 1 ≤ z.re := by nlinarith
        nlinarith [mul_nonneg (sub_nonneg.mpr hx1) (sub_nonneg.mpr hx1),
          mul_nonneg (sub_nonneg.mpr hx1) (by linarith : (0 : ℝ) ≤ 2 - T)]
      · have hx1 : z.re ≤ -1 := by nlinarith
        have hx2 : (0 : ℝ) ≤ -1 - z.re := by linarith
        nlinarith [mul_nonneg hx2 hx2, mul_nonneg hx2 (by linarith : (0 : ℝ) ≤ 2 + T)]
    · have h2 : z.im * (2 * z.re - T) = 0 := by linarith
      have h3 : 2 * z.re - T = 0 := by
        rcases mul_eq_zero.mp h2 with h | h
        · exact absurd h hy
        · exact h
      have h4 : T = 2 * z.re := by linarith
      rw [h4] at hre
      nlinarith
  have hnn : 0 ≤ Complex.abs z := Complex.abs.nonneg z
  by_contra hcon
  push_neg at hcon
  nlinarith

theorem eigen_charpoly (a b c d : ℝ) {z v1 v2 : ℂ} (hv : v1 ≠ 0 ∨ v2 ≠ 0)
    (h1 : (a : ℂ) * v1 + (b : ℂ) * v2 = z * v1) (h2 : (c : ℂ) * v1 + (d : ℂ) * v2 = z * v2) :
    z ^ 2 - ((a + d : ℝ) : ℂ) * z + ((a * d - b * c : ℝ) : ℂ) = 0 := by
  have e1 : (z ^ 2 - ((a + d : ℝ) : ℂ) * z + ((a * d - b * c : ℝ) : ℂ)) * v1 = 0 := by
    push_cast
    linear_combination (-(z - (d : ℂ))) * h1 + (-(b : ℂ)) * h2
  have e2 : (z ^ 2 - ((a + d : ℝ) : ℂ) * z + ((a * d - b * c : ℝ) : ℂ)) * v2 = 0 := by
    push_cast
    linear_combination (-(c : ℂ)) * h1 + (-(z - (a : ℂ))) * h2
  rcases hv with hv | hv
  · exact (mul_eq_zero.mp e1).resolve_right hv
  · exact (mul_eq_zero.mp e2).resolve_right hv

theorem zeroInputRun_succ {F : Type} [LinearOrderedField F] (bp : BandpassFilter F) (n : ℕ) :
    zeroInputRun bp (n + 1) = zeroInputRun (bp.process 0).2 n := by
  simp only [zeroInputRun, List.replicate_succ, runFilter]

theorem filterEnergy_step (f q s1 s2 : ℝ) :
    filterEnergy f q (0.999 * ((1 - f) * s1 - f * q * s2))
        (0.999 * (f * (1 - f) * s1 + (1 - f ^ 2 * q) * s2)) =
      0.998001 * (filterEnergy f q s1 s2 -
        f ^ 2 * ((2 - f - f ^ 2 * q) * ((1 - f) * s1 - f * q * s2) - (2 - f) * s1) ^ 2) := by
  unfold filterEnergy
  ring

theorem filterEnergy_eq (f q s1 s2 : ℝ) :
    filterEnergy f q s1 s2 =
      f * (f ^ 2 * q * (((1 - f) * s1 - f * q * s2) ^ 2 + s1 ^ 2) +
        (2 - f - f ^ 2 * q) * (((1 - f) * s1 - f * q * s2) - s1) ^ 2) := by
  unfold filterEnergy
  ring

theorem filterEnergy_bounds {f q : ℝ} (hf0 : 0.001 ≤ f) (hf1 : f ≤ 0.4) (hq0 : 0.5 ≤ q)
    (hq1 : q ≤ 10) (s1 s2 : ℝ) :
    0 ≤ filterEnergy f q s1 s2 ∧ f ^ 3 * q * s1 ^ 2 ≤ filterEnergy f q s1 s2 ∧
      f ^ 5 * q ^ 3 * s2 ^ 2 ≤ 2 * filterEnergy f q s1 s2 := by
  obtain ⟨h0, h1⟩ := f_sq_q_le hf0 hf1 hq0 hq1
  have hf : 0 < f := by linarith
  have hq : 0 < q := by linarith
  have hT : 0 ≤ 2 - f - f ^ 2 * q := by linarith
  rw [filterEnergy_eq]
  generalize hy : (1 - f) * s1 - f * q * s2 = y
  have hc : 0 < f ^ 3 * q := by positivity
  have t1 : 0 ≤ f * ((2 - f - f ^ 2 * q) * (y - s1) ^ 2) :=
    mul_nonneg hf.le (mul_nonneg hT (sq_nonneg _))
  have t2 : 0 ≤ f ^ 3 * q * y ^ 2 := mul_nonneg hc.le (sq_nonneg _)
  have t3 : 0 ≤ f ^ 3 * q * s1 ^ 2 := mul_nonneg hc.le (sq_nonneg _)
  have hE : f * (f ^ 2 * q * (y ^ 2 + s1 ^ 2) + (2 - f - f ^ 2 * q) * (y - s1) ^ 2) =
      f ^ 3 * q * y ^ 2 + f ^ 3 * q * s1 ^ 2 + f * ((2 - f - f ^ 2 * q) * (y - s1) ^ 2) := by
    ring
  rw [hE]
  refine ⟨by linarith, by linarith, ?_⟩
  have hs2 : f * q * s2 = (1 - f) * s1 - y := by linarith
  have hsq : (f * q * s2) ^ 2 ≤ 2 * (s1 ^ 2 + y ^ 2) := by
    rw [hs2]
    nlinarith [sq_nonneg ((1 - f) * s1 + y), sq_nonneg s1, sq_nonneg y,
      mul_nonneg (mul_nonneg hf.le (by linarith : (0 : ℝ) ≤ 2 - f)) (sq_nonneg s1)]
  have hmul : f ^ 5 * q ^ 3 * s2 ^ 2 = f ^ 3 * q * (f * q * s2) ^ 2 := by ring
  rw [hmul]
  have := mul_le_mul_of_nonneg_left hsq hc.le
  linarith

theorem zeroInputRun_energy (f q : ℝ) (n : ℕ) :
    ∀ s1 s2 : ℝ,
      filterEnergy f q (zeroInputRun (BandpassFilter.mk s1 s2 f q) n).s1
          (zeroInputRun (BandpassFilter.mk s1 s2 f q) n).s2 ≤
        0.998001 ^ n * filterEnergy f q s1 s2 := by
  induction n with
  | zero =>
    intro s1 s2
    simp [zeroInputRun, runFilter]
  | succ k ih =>
    intro s1 s2
    have hf : 0 ≤ f ^ 2 := sq_nonneg f
    rw [zeroInputRun_succ, process_zero_input]
    refine (ih _ _).trans ?_
    rw [filterEnergy_step, pow_succ (0.998001 : ℝ) k]
    have hk : (0 : ℝ) ≤ 0.998001 ^ k := by positivity
    have hsq : 0 ≤ f ^ 2 *
        ((2 - f - f ^ 2 * q) * ((1 - f) * s1 - f * q * s2) - (2 - f) * s1) ^ 2 :=
      mul_nonneg hf (sq_nonneg _)
    have : 0.998001 ^ k * (0.998001 * (filterEnergy f q s1 s2 - f ^ 2 *
        ((2 - f - f ^ 2 * q) * ((1 - f) * s1 - f * q * s2) - (2 - f) * s1) ^ 2)) ≤
        0.998001 ^ k * (0.998001 * filterEnergy f q s1 s2) :=
      mul_le_mul_of_nonneg_left (by linarith) hk
    linarith

theorem tendsto_zero_of_sq_le (u : ℕ → ℝ) (C : ℝ) (h : ∀ n, u n ^ 2 ≤ C * 0.998001 ^ n) :
    Filter.Tendsto u Filter.atTop (nhds 0) := by
  have hpow : Filter.Tendsto (fun n : ℕ => C * (0.998001 : ℝ) ^ n) Filter.atTop (nhds 0) := by
    have := (tendsto_pow_atTop_nhds_zero_of_lt_one (by norm_num : (0 : ℝ) ≤ 0.998001)
      (by norm_num : (0.998001 : ℝ) < 1)).const_mul C
    simpa using this
  have hsq : Filter.Tendsto (fun n => u n ^ 2) Filter.atTop (nhds 0) :=
    squeeze_zero (fun n => sq_nonneg (u n)) h hpow
  have habs : Filter.Tendsto (fun n => Real.sqrt (u n ^ 2)) Filter.atTop (nhds 0) := by
    have := (Real.continuous_sqrt.tendsto 0).comp hsq
    simpa using this
  rw [tendsto_zero_iff_abs_tendsto_zero]
  refine habs.congr (fun n => ?_)
  exact Real.sqrt_sq_eq_abs (u n)

theorem zeroInputRun_tendsto {f q : ℝ} (hf0 : 0.001 ≤ f) (hf1 : f ≤ 0.4) (hq0 : 0.5 ≤ q)
    (hq1 : q ≤ 10) (s1 s2 : ℝ) :
    Filter.Tendsto (fun n => (zeroInputRun (BandpassFilter.mk s1 s2 f q) n).s1) Filter.atTop
        (nhds 0) ∧
      Filter.Tendsto (fun n => (zeroInputRun (BandpassFilter.mk s1 s2 f q) n).s2) Filter.atTop
        (nhds 0) := by
  have hf : 0 < f := by linarith
  have hq : 0 < q := by linarith
  have hc1 : 0 < f ^ 3 * q := by positivity
  have hc2 : 0 < f ^ 5 * q ^ 3 := by positivity
  constructor
  · apply tendsto_zero_of_sq_le _ (filterEnergy f q s1 s2 / (f ^ 3 * q))
    intro n
    have hE := zeroInputRun_energy f q n s1 s2
    have hb := (filterEnergy_bounds hf0 hf1 hq0 hq1
      (zeroInputRun (BandpassFilter.mk s1 s2 f q) n).s1
      (zeroInputRun (BandpassFilter.mk s1 s2 f q) n).s2).2.1
    rw [div_mul_eq_mul_div, le_div_iff₀ hc1]
    linarith
  · apply tendsto_zero_of_sq_le _ (2 * filterEnergy f q s1 s2 / (f ^ 5 * q ^ 3))
    intro n
    have hE := zeroInputRun_energy f q n s1 s2
    have hb := (filterEnergy_bounds hf0 hf1 hq0 hq1
      (zeroInputRun (BandpassFilter.mk s1 s2 f q) n).s1
      (zeroInputRun (BandpassFilter.mk s1 s2 f q) n).s2).2.2
    rw [div_mul_eq_mul_div, le_div_iff₀ hc2]
    linarith

/-- C19. For every `f` in `[0.001, 0.4]` and `q` in `[0.5, 10]`, `BandpassFilter::process`
with zero input is the linear update
`(s1, s2) ↦ 0.999 * ((1 - f) * s1 - f * q * s2, f * (1 - f) * s1 + (1 - f^2 * q) * s2)`;
its matrix satisfies the Jury conditions `|det| < 1` and `|trace| < 1 + det`; every complex
eigenvalue of the matrix has modulus strictly less than 1; and with `f` and `q` fixed both state
registers tend to zero from any starting state. -/
theorem C19_filter_stability (f q : ℝ) (hf0 : 0.001 ≤ f) (hf1 : f ≤ 0.4) (hq0 : 0.5 ≤ q)
    (hq1 : q ≤ 10) :
    (∀ s1 s2 : ℝ, ((BandpassFilter.mk s1 s2 f q).process 0).2 =
        { s1 := 0.999 * ((1 - f) * s1 - f * q * s2)
          s2 := 0.999 * (f * (1 - f) * s1 + (1 - f ^ 2 * q) * s2)
          f := f
          q := q }) ∧
      (|dampedDet f q| < 1 ∧ |dampedTrace f q| < 1 + dampedDet f q) ∧
      (∀ z v1 v2 : ℂ, (v1 ≠ 0 ∨ v2 ≠ 0) →
        ((0.999 * (1 - f) : ℝ) : ℂ) * v1 + ((0.999 * (-(f * q)) : ℝ) : ℂ) * v2 = z * v1 →
        ((0.999 * (f * (1 - f)) : ℝ) : ℂ) * v1 + ((0.999 * (1 - f ^ 2 * q) : ℝ) : ℂ) * v2 =
          z * v2 →
        Complex.abs z < 1) ∧
      ∀ s1 s2 : ℝ,
        Filter.Tendsto (fun n => (zeroInputRun (BandpassFilter.mk s1 s2 f q) n).s1)
            Filter.atTop (nhds 0) ∧
          Filter.Tendsto (fun n => (zeroInputRun (BandpassFilter.mk s1 s2 f q) n).s2)
            Filter.atTop (nhds 0) := by
  obtain ⟨hD, hT⟩ := jury_conditions hf0 hf1 hq0 hq1
  refine ⟨fun s1 s2 => process_zero_input s1 s2 f q, ⟨hD, hT⟩, fun z v1 v2 hv h1 h2 => ?_,
    fun s1 s2 => zeroInputRun_tendsto hf0 hf1 hq0 hq1 s1 s2⟩
  exact jury_root_abs_lt_one hD hT (eigen_charpoly _ _ _ _ hv h1 h2)

theorem C19_filter_stability_witness :
    ((0.001 : ℝ) ≤ 0.1 ∧ (0.1 : ℝ) ≤ 0.4 ∧ (0.5 : ℝ) ≤ 0.5 ∧ (0.5 : ℝ) ≤ 10) ∧
      (|dampedDet (0.1 : ℝ) 0.5| < 1 ∧
        |dampedTrace (0.1 : ℝ) 0.5| < 1 + dampedDet (0.1 : ℝ) 0.5) ∧
      (Filter.Tendsto (fun n => (zeroInputRun (BandpassFilter.mk (1 : ℝ) 1 0.1 0.5) n).s1)
          Filter.atTop (nhds 0) ∧
        Filter.Tendsto (fun n => (zeroInputRun (BandpassFilter.mk (1 : ℝ) 1 0.1 0.5) n).s2)
          Filter.atTop (nhds 0)) :=
  ⟨⟨by norm_num, by norm_num, le_refl _, by norm_num⟩,
    (C19_filter_stability 0.1 0.5 (by norm_num) (by norm_num) (le_refl _) (by norm_num)).2.1,
    (C19_filter_stability 0.1 0.5 (by norm_num) (by norm_num) (le_refl _)
      (by norm_num)).2.2.2 1 1⟩

/-! ## The tilt stage (C20) -/

theorem tilted_eq_tiltStage {F : Type} [LinearOrderedField F] (m : CMath F) (st : Statics F)
    (v : BreathLeadVoice F) :
    (v.process m st).statics.tiltState =
        (tiltStage v.tone st.tiltState (v.resonated m st)).1 ∧
      v.tilted m st = (tiltStage v.tone st.tiltState (v.resonated m st)).2 := by
  rw [process_statics]
  exact ⟨rfl, rfl⟩

theorem tiltInputWeight_eq {F : Type} [LinearOrderedField F] (tone : F) :
    tiltInputWeight tone = 0.1 - 0.098 * tone := by
  simp only [tiltInputWeight, tiltStage]
  ring

/-- C20, evaluated on the code. The tilt coefficient is `0.95 + 0.049 * tone` (0.95 at
`tone = 0`, 0.999 at `tone = 1`) and `tilted = tiltCoef * register + weight * resonated`, where
the weight of the raw input is `0.1 - 0.098 * tone`: it is 0.1 at `tone = 0` and 0.002 at
`tone = 1`, and strictly smaller at the larger of any two tones. -/
theorem C20_tilt_weight_falls_with_tone :
    (∀ (m : CMath ℝ) (st : Statics ℝ) (v : BreathLeadVoice ℝ),
        v.tiltCoef = 0.95 + 0.049 * v.tone ∧
          v.tilted m st = (tiltStage v.tone st.tiltState (v.resonated m st)).2 ∧
          v.tilted m st =
            v.tiltCoef * st.tiltState + tiltInputWeight v.tone * v.resonated m st) ∧
      ((0.95 : ℝ) + 0.049 * 0 = 0.95 ∧ (0.95 : ℝ) + 0.049 * 1 = 0.999) ∧
      (tiltInputWeight (0 : ℝ) = 0.1 ∧ tiltInputWeight (1 : ℝ) = 0.002) ∧
      ¬ (tiltInputWeight (1 : ℝ) ≥ tiltInputWeight (0 : ℝ)) ∧
      ∀ tone1 tone2 : ℝ, tone1 < tone2 → tiltInputWeight tone2 < tiltInputWeight tone1 := by
  refine ⟨fun m st v => ⟨?_, (tilted_eq_tiltStage m st v).2, ?_⟩, ⟨by norm_num, by norm_num⟩,
    ⟨?_, ?_⟩, ?_, ?_⟩
  · simp only [BreathLeadVoice.tiltCoef]
    ring
  · rw [tiltInputWeight_eq]
    simp only [BreathLeadVoice.tilted, BreathLeadVoice.tiltNext, BreathLeadVoice.tiltCoef]
    ring
  · rw [tiltInputWeight_eq]
    norm_num
  · rw [tiltInputWeight_eq]
    norm_num
  · rw [tiltInputWeight_eq, tiltInputWeight_eq]
    norm_num
  · intro tone1 tone2 h
    rw [tiltInputWeight_eq, tiltInputWeight_eq]
    linarith

end Breath
